import Mathlib

/-!
Verification of the lodestar beacon state-query route layer
(`packages/api/src/beacon/routes/beacon/state.ts`): request serializers,
route table, response schemas, and the helpers they rely on.

Embedding conventions: JavaScript numbers that hold unsigned 64-bit
quantities become `Nat` (with explicit `< 2^64` bounds where overflow
matters), `undefined`-able values become `Option`, throwing parsers
return `Option`, and objects become structures.  Helpers of this
repository that live outside the provided sources (`fromU64Str` /
`toU64Str` from `utils/serdes.ts`, the SSZ codec combinators, the
optimistic/finalized envelope, the StateId grammar) are modelled from
the specification and marked as such in their doc comments.
-/

namespace LodestarStateApi

/-! ## Large-integer wire codec -/

/-- `2^64`, the exclusive upper bound of the wire-safe integer range. -/
def U64_LIMIT : Nat := 18446744073709551616

/-- Fuel-driven little-endian base-10 digit expansion (structural recursion so
that the kernel can evaluate it on concrete inputs). -/
def digitsRevAux : Nat → Nat → List Nat
  | 0, _ => []
  | fuel + 1, n => if n < 10 then [n] else (n % 10) :: digitsRevAux fuel (n / 10)

/-- Little-endian base-10 digit list of `n` (least significant first). -/
def digitsRevU (n : Nat) : List Nat := digitsRevAux (n + 1) n

theorem digitsRevAux_stable (f1 : Nat) : ∀ f2 n, n < f1 → n < f2 →
    digitsRevAux f1 n = digitsRevAux f2 n := by
  induction f1 with
  | zero => omega
  | succ f1 ih =>
    intro f2 n h1 h2
    cases f2 with
    | zero => omega
    | succ f2 =>
      show (if n < 10 then [n] else (n % 10) :: digitsRevAux f1 (n / 10)) = _
      by_cases h10 : n < 10
      · rw [if_pos h10]; rw [show digitsRevAux (f2 + 1) n = if n < 10 then [n]
          else (n % 10) :: digitsRevAux f2 (n / 10) from rfl, if_pos h10]
      · rw [if_neg h10]
        rw [show digitsRevAux (f2 + 1) n = if n < 10 then [n]
          else (n % 10) :: digitsRevAux f2 (n / 10) from rfl, if_neg h10]
        rw [ih f2 (n / 10) (by omega) (by omega)]

/-- One-step unfolding of `digitsRevU`, hiding the fuel. -/
theorem digitsRevU_unfold (n : Nat) :
    digitsRevU n = if n < 10 then [n] else (n % 10) :: digitsRevU (n / 10) := by
  show (if n < 10 then [n] else (n % 10) :: digitsRevAux n (n / 10)) = _
  by_cases h10 : n < 10
  · rw [if_pos h10, if_pos h10]
  · rw [if_neg h10, if_neg h10,
      digitsRevAux_stable n (n / 10 + 1) (n / 10) (by omega) (by omega)]
    rfl

/-- Value of a little-endian digit list. -/
def valLE : List Nat → Nat
  | [] => 0
  | d :: ds => d + 10 * valLE ds

/-- ASCII character of a decimal digit. -/
def digitChar (d : Nat) : Char := Char.ofNat (48 + d)

/-- Canonical big-endian decimal character rendering of `n`. -/
def natToDecChars (n : Nat) : List Char := ((digitsRevU n).reverse).map digitChar

/-- Modelled from the spec: `toU64Str` (in `utils/serdes.ts`, not under the
provided sources) renders an unsigned 64-bit integer as its canonical
decimal string: no leading zeros, no sign. -/
def toU64Str (n : Nat) : String := String.mk (natToDecChars n)

/-- Big-endian decimal value of a character list (each char assumed a digit). -/
def decValBE (cs : List Char) : Nat :=
  cs.foldl (fun a c => 10 * a + (c.toNat - 48)) 0

/-- Modelled from the spec: `fromU64Str` (in `utils/serdes.ts`, not under the
provided sources) parses a canonical decimal string back to an unsigned
64-bit integer, failing (MalformedNumber) on non-digit characters, on a
leading zero other than the literal `"0"`, and on values `≥ 2^64`. -/
def fromU64Str (s : String) : Option Nat :=
  match s.data with
  | [] => none
  | c :: cs =>
    if (c :: cs).all Char.isDigit then
      if c = '0' ∧ cs ≠ [] then none
      else if decValBE (c :: cs) < U64_LIMIT then some (decValBE (c :: cs))
      else none
    else none

theorem valLE_digitsRevU (n : Nat) : valLE (digitsRevU n) = n := by
  induction n using Nat.strong_induction_on with
  | _ n ih =>
    rw [digitsRevU_unfold]
    by_cases h : n < 10
    · rw [if_pos h]; simp [valLE]
    · rw [if_neg h]
      have hd : n / 10 < n := Nat.div_lt_self (by omega) (by omega)
      simp only [valLE, ih _ hd]
      omega

theorem digitsRevU_ne_nil (n : Nat) : digitsRevU n ≠ [] := by
  rw [digitsRevU_unfold]
  by_cases h : n < 10
  · rw [if_pos h]; simp
  · rw [if_neg h]; simp

theorem digitsRevU_lt_ten (n : Nat) : ∀ d ∈ digitsRevU n, d < 10 := by
  induction n using Nat.strong_induction_on with
  | _ n ih =>
    rw [digitsRevU_unfold]
    by_cases h : n < 10
    · rw [if_pos h]; simp [h]
    · rw [if_neg h]
      intro d hd
      rcases List.mem_cons.mp hd with rfl | hmem
      · omega
      · exact ih _ (Nat.div_lt_self (by omega) (by omega)) d hmem

theorem digitsRevU_getLast?_ne_zero (n : Nat) (hn : 1 ≤ n) :
    ∀ d, (digitsRevU n).getLast? = some d → d ≠ 0 := by
  induction n using Nat.strong_induction_on with
  | _ n ih =>
    rw [digitsRevU_unfold]
    by_cases h : n < 10
    · rw [if_pos h]
      intro d hd
      simp only [List.getLast?_singleton, Option.some.injEq] at hd
      omega
    · rw [if_neg h]
      intro d hd
      obtain ⟨a, l, hl⟩ := List.exists_cons_of_ne_nil (digitsRevU_ne_nil (n / 10))
      rw [hl, List.getLast?_cons_cons, ← hl] at hd
      exact ih _ (Nat.div_lt_self (by omega) (by omega)) (by
        have : ¬ n / 10 = 0 := by omega
        omega) d hd

theorem digitChar_isDigit {d : Nat} (h : d < 10) : (digitChar d).isDigit = true := by
  interval_cases d <;> decide

theorem digitChar_toNat {d : Nat} (h : d < 10) : (digitChar d).toNat - 48 = d := by
  interval_cases d <;> decide

theorem digitChar_ne_zero_char {d : Nat} (h : d < 10) (hz : d ≠ 0) : digitChar d ≠ '0' := by
  interval_cases d <;> simp_all <;> decide

theorem decValBE_map_digitChar (l : List Nat) (h : ∀ d ∈ l, d < 10) (a : Nat) :
    (l.map digitChar).foldl (fun a c => 10 * a + (c.toNat - 48)) a =
      l.foldl (fun a d => 10 * a + d) a := by
  induction l generalizing a with
  | nil => rfl
  | cons d ds ih =>
    simp only [List.map_cons, List.foldl_cons]
    rw [digitChar_toNat (h d (by simp))]
    exact ih (fun x hx => h x (by simp [hx])) _

theorem foldlBE_reverse (l : List Nat) :
    (l.reverse).foldl (fun a d => 10 * a + d) 0 = valLE l := by
  induction l with
  | nil => rfl
  | cons d ds ih =>
    simp only [List.reverse_cons, List.foldl_append, List.foldl_cons, List.foldl_nil, ih, valLE]
    omega

theorem decValBE_natToDecChars (n : Nat) : decValBE (natToDecChars n) = n := by
  unfold decValBE natToDecChars
  rw [decValBE_map_digitChar _ (fun d hd => digitsRevU_lt_ten n d (List.mem_reverse.mp hd))]
  rw [foldlBE_reverse, valLE_digitsRevU]

theorem natToDecChars_all_digits (n : Nat) :
    (natToDecChars n).all Char.isDigit = true := by
  rw [List.all_eq_true]
  intro c hc
  obtain ⟨d, hd, rfl⟩ := List.mem_map.mp hc
  exact digitChar_isDigit (digitsRevU_lt_ten n d (List.mem_reverse.mp hd))

theorem fromU64Str_toU64Str (n : Nat) (h : n < U64_LIMIT) :
    fromU64Str (toU64Str n) = some n := by
  unfold toU64Str fromU64Str
  obtain ⟨c, cs, hcs⟩ : ∃ c cs, natToDecChars n = c :: cs := by
    have hne : natToDecChars n ≠ [] := by
      simp only [natToDecChars, ne_eq, List.map_eq_nil_iff, List.reverse_eq_nil_iff]
      exact digitsRevU_ne_nil n
    exact List.exists_cons_of_ne_nil hne
  simp only [hcs]
  have hall : (c :: cs).all Char.isDigit = true := by
    rw [← hcs]; exact natToDecChars_all_digits n
  rw [if_pos hall]
  have hval : decValBE (c :: cs) = n := by rw [← hcs]; exact decValBE_natToDecChars n
  have hcanon : ¬(c = '0' ∧ cs ≠ []) := by
    rintro ⟨rfl, hne⟩
    by_cases hn10 : n < 10
    · have hd1 : digitsRevU n = [n] := by rw [digitsRevU_unfold, if_pos hn10]
      have h1 : natToDecChars n = [digitChar n] := by
        rw [natToDecChars, hd1]
        rfl
      rw [h1] at hcs
      injection hcs with hc1 hc2
      exact hne hc2.symm
    · -- the leading char is the most significant digit, nonzero for n ≥ 10
      have hlast : ∀ d, (digitsRevU n).getLast? = some d → d ≠ 0 :=
        digitsRevU_getLast?_ne_zero n (by omega)
      have hhead : (natToDecChars n).head? = some '0' := by rw [hcs]; rfl
      simp only [natToDecChars, List.head?_map, List.head?_reverse] at hhead
      obtain ⟨d, hd, hdc⟩ : ∃ d, (digitsRevU n).getLast? = some d ∧ digitChar d = '0' := by
        cases hgl : (digitsRevU n).getLast? with
        | none => rw [hgl] at hhead; simp at hhead
        | some d =>
          rw [hgl] at hhead
          simp at hhead
          exact ⟨d, rfl, hhead⟩
      have hdmem : d ∈ digitsRevU n := by
        obtain ⟨hne', rfl⟩ := List.mem_getLast?_eq_getLast (Option.mem_def.mpr hd)
        exact List.getLast_mem hne'
      have hd10 : d < 10 := digitsRevU_lt_ten n d hdmem
      exact digitChar_ne_zero_char hd10 (hlast d hd) hdc
  rw [if_neg hcanon, hval, if_pos h]

theorem fromU64Str_eq_none_iff (s : String) :
    fromU64Str s = none ↔
      (s.data = [] ∨ (s.data.all Char.isDigit) = false ∨
        (s.data.head? = some '0' ∧ 1 < s.data.length) ∨
        U64_LIMIT ≤ decValBE s.data) := by
  unfold fromU64Str
  split
  next hnil => simp [hnil]
  next c cs hd =>
    rw [hd]
    by_cases hall : ((c :: cs).all Char.isDigit) = true
    · rw [if_pos hall]
      by_cases hcanon : c = '0' ∧ cs ≠ []
      · rw [if_pos hcanon]
        constructor
        · intro _
          refine Or.inr (Or.inr (Or.inl ⟨by rw [hcanon.1]; rfl, ?_⟩))
          rcases List.exists_cons_of_ne_nil hcanon.2 with ⟨a, l, rfl⟩
          simp
        · intro _; rfl
      · rw [if_neg hcanon]
        by_cases hlim : decValBE (c :: cs) < U64_LIMIT
        · rw [if_pos hlim]
          constructor
          · intro hcontra; exact absurd hcontra (by simp)
          · intro hbad
            rcases hbad with hbad | hbad | hbad | hbad
            · exact absurd hbad (by simp)
            · rw [hall] at hbad; exact absurd hbad (by simp)
            · refine absurd hbad ?_
              rintro ⟨hb1, hb2⟩
              simp only [List.head?_cons, Option.some.injEq] at hb1
              refine hcanon ⟨hb1, ?_⟩
              intro hnil
              rw [hnil] at hb2
              simp at hb2
            · omega
        · rw [if_neg hlim]
          exact ⟨fun _ => Or.inr (Or.inr (Or.inr (by omega))), fun _ => rfl⟩
    · rw [if_neg hall]
      constructor
      · intro _
        exact Or.inr (Or.inl (by simpa using hall))
      · intro _; rfl

/-! ## Domain types (from `state.ts`) -/

/-- `StateId = RootHex | Slot | "head" | "genesis" | "finalized" | "justified"`:
on the JavaScript side this is a string-or-number union. -/
inductive StateId where
  | str (s : String)
  | num (n : Nat)
deriving DecidableEq

/-- `ValidatorId = string | number`. -/
inductive ValidatorId where
  | str (s : String)
  | num (n : Nat)
deriving DecidableEq

/-- The ten `ValidatorStatus` string literals of `state.ts`. -/
inductive ValidatorStatus where
  | active
  | pending_initialized
  | pending_queued
  | active_ongoing
  | active_exiting
  | active_slashed
  | exited_unslashed
  | exited_slashed
  | withdrawal_possible
  | withdrawal_done
deriving DecidableEq

/-- `ValidatorFilters = {id?: ValidatorId[]; status?: ValidatorStatus[]}`. -/
structure ValidatorFilters where
  id : Option (List ValidatorId)
  status : Option (List ValidatorStatus)
deriving DecidableEq

/-- `CommitteesFilters = {epoch?: Epoch; index?: CommitteeIndex; slot?: Slot}`. -/
structure CommitteesFilters where
  epoch : Option Nat
  index : Option Nat
  slot : Option Nat
deriving DecidableEq

/-- JavaScript `String(x)` applied to a `StateId`: strings unchanged, numbers
rendered in decimal. -/
def stateIdToString : StateId → String
  | .str s => s
  | .num n => toU64Str n

/-- The arrow `(id) => (typeof id === "string" ? id : toU64Str(id))` used by the
POST writeReq serializers. -/
def validatorIdToU64Str : ValidatorId → String
  | .str s => s
  | .num n => toU64Str n

/-- JavaScript `s.startsWith("0x")`, expressed on the character list. -/
def strStartsWith0x (s : String) : Bool :=
  match s.data with
  | '0' :: 'x' :: _ => true
  | _ => false

/-- The arrow `(id) => (typeof id === "string" && id.startsWith("0x") ? id :
fromU64Str(id))` used by the POST parseReq serializers; in the wire body every
element is a string, so only the prefix test matters.  A `fromU64Str` failure
aborts the whole parse. -/
def parseValidatorIdStr (s : String) : Option ValidatorId :=
  if strStartsWith0x s then some (.str s)
  else (fromU64Str s).map .num

/-- `ids.map(...)` with the throwing mapper of the POST parseReq serializers:
the first malformed element aborts the whole list. -/
def parseIds : List String → Option (List ValidatorId)
  | [] => some []
  | s :: rest =>
    match parseValidatorIdStr s, parseIds rest with
    | some v, some vs => some (v :: vs)
    | _, _ => none

/-! ## Wire request shapes (`ReqTypes` in `state.ts`) -/

/-- `{params: {state_id: string}}`, shared by the finality-checkpoints, fork
and root routes. -/
structure StateIdOnlyReq where
  state_id : String
deriving DecidableEq

/-- `{params: {state_id}; query: {slot?; epoch?; index?}}`. -/
structure EpochCommitteesReq where
  state_id : StateId
  query : CommitteesFilters
deriving DecidableEq

/-- `{params: {state_id}; query: {epoch?}}`, shared by the sync-committees and
randao routes. -/
structure EpochQueryReq where
  state_id : StateId
  epoch : Option Nat
deriving DecidableEq

/-- `{params: {state_id; validator_id}}`. -/
structure StateValidatorReq where
  state_id : StateId
  validator_id : ValidatorId
deriving DecidableEq

/-- `{params: {state_id}; query: {id?; status?}}`. -/
structure StateValidatorsReq where
  state_id : StateId
  query : ValidatorFilters
deriving DecidableEq

/-- POST body `{ids?: string[]; statuses?: ValidatorStatus[]}`. -/
structure PostValidatorsBody where
  ids : Option (List String)
  statuses : Option (List ValidatorStatus)
deriving DecidableEq

/-- `{params: {state_id}; body: {ids?; statuses?}}`. -/
structure PostValidatorsReq where
  state_id : StateId
  body : PostValidatorsBody
deriving DecidableEq

/-- `{params: {state_id}; query: {id?: ValidatorId[]}}`. -/
structure ValidatorBalancesReq where
  state_id : StateId
  id : Option (List ValidatorId)
deriving DecidableEq

/-- `{params: {state_id}; body?: string[]}`. -/
structure PostValidatorBalancesReq where
  state_id : StateId
  body : Option (List String)
deriving DecidableEq

/-! ## Request serializers (`getReqSerializers` in `state.ts`) -/

/-- `stateIdOnlyReq.writeReq`: `(state_id) => ({params: {state_id: String(state_id)}})`. -/
def stateIdOnlyReq_writeReq (state_id : StateId) : StateIdOnlyReq :=
  ⟨stateIdToString state_id⟩

/-- `stateIdOnlyReq.parseReq`: `({params}) => [params.state_id]` — the wire
string itself is returned as the domain argument. -/
def stateIdOnlyReq_parseReq (r : StateIdOnlyReq) : StateId :=
  .str r.state_id

/-- `getEpochCommittees.writeReq`: `(state_id, filters) => ({params: {state_id}, query: filters || {}})`. -/
def getEpochCommittees_writeReq (state_id : StateId) (filters : Option CommitteesFilters) :
    EpochCommitteesReq :=
  ⟨state_id, filters.getD ⟨none, none, none⟩⟩

/-- `getEpochCommittees.parseReq`: `({params, query}) => [params.state_id, query]`. -/
def getEpochCommittees_parseReq (r : EpochCommitteesReq) : StateId × Option CommitteesFilters :=
  (r.state_id, some r.query)

/-- `getEpochSyncCommittees.writeReq`: `(state_id, epoch) => ({params: {state_id}, query: {epoch}})`. -/
def getEpochSyncCommittees_writeReq (state_id : StateId) (epoch : Option Nat) : EpochQueryReq :=
  ⟨state_id, epoch⟩

/-- `getEpochSyncCommittees.parseReq`: `({params, query}) => [params.state_id, query.epoch]`. -/
def getEpochSyncCommittees_parseReq (r : EpochQueryReq) : StateId × Option Nat :=
  (r.state_id, r.epoch)

/-- `getStateRandao.writeReq` (same shape as the sync-committees route). -/
def getStateRandao_writeReq (state_id : StateId) (epoch : Option Nat) : EpochQueryReq :=
  ⟨state_id, epoch⟩

/-- `getStateRandao.parseReq`. -/
def getStateRandao_parseReq (r : EpochQueryReq) : StateId × Option Nat :=
  (r.state_id, r.epoch)

/-- `getStateValidator.writeReq`: `(state_id, validator_id) => ({params: {state_id, validator_id}})`. -/
def getStateValidator_writeReq (state_id : StateId) (validator_id : ValidatorId) :
    StateValidatorReq :=
  ⟨state_id, validator_id⟩

/-- `getStateValidator.parseReq`: `({params}) => [params.state_id, params.validator_id]`. -/
def getStateValidator_parseReq (r : StateValidatorReq) : StateId × ValidatorId :=
  (r.state_id, r.validator_id)

/-- `getStateValidators.writeReq`: `(state_id, filters) => ({params: {state_id}, query: filters || {}})`. -/
def getStateValidators_writeReq (state_id : StateId) (filters : Option ValidatorFilters) :
    StateValidatorsReq :=
  ⟨state_id, filters.getD ⟨none, none⟩⟩

/-- `getStateValidators.parseReq`: `({params, query}) => [params.state_id, query]`. -/
def getStateValidators_parseReq (r : StateValidatorsReq) : StateId × Option ValidatorFilters :=
  (r.state_id, some r.query)

/-- `postStateValidators.writeReq`: ids are stringified with `toU64Str` unless
already strings; statuses pass through. -/
def postStateValidators_writeReq (state_id : StateId) (filters : Option ValidatorFilters) :
    PostValidatorsReq :=
  ⟨state_id,
    ⟨(filters.bind (·.id)).map (·.map validatorIdToU64Str), filters.bind (·.status)⟩⟩

/-- `postStateValidators.parseReq`: each id is kept verbatim when it starts
with `0x`, otherwise decoded with `fromU64Str` (whose failure aborts the parse). -/
def postStateValidators_parseReq (r : PostValidatorsReq) :
    Option (StateId × Option ValidatorFilters) :=
  match r.body.ids with
  | none => some (r.state_id, some ⟨none, r.body.statuses⟩)
  | some ids =>
    (parseIds ids).map (fun l => (r.state_id, some ⟨some l, r.body.statuses⟩))

/-- `getStateValidatorBalances.writeReq`: `(state_id, id) => ({params: {state_id}, query: {id}})`. -/
def getStateValidatorBalances_writeReq (state_id : StateId) (id : Option (List ValidatorId)) :
    ValidatorBalancesReq :=
  ⟨state_id, id⟩

/-- `getStateValidatorBalances.parseReq`: `({params, query}) => [params.state_id, query.id]`. -/
def getStateValidatorBalances_parseReq (r : ValidatorBalancesReq) :
    StateId × Option (List ValidatorId) :=
  (r.state_id, r.id)

/-- `postStateValidatorBalances.writeReq`: `body: ids?.map(...) || []` — an
absent list becomes the explicit empty array. -/
def postStateValidatorBalances_writeReq (state_id : StateId) (ids : Option (List ValidatorId)) :
    PostValidatorBalancesReq :=
  ⟨state_id, some ((ids.map (·.map validatorIdToU64Str)).getD [])⟩

/-- `postStateValidatorBalances.parseReq`: `({params, body}) => [params.state_id, body?.map(...)]`. -/
def postStateValidatorBalances_parseReq (r : PostValidatorBalancesReq) :
    Option (StateId × Option (List ValidatorId)) :=
  match r.body with
  | none => some (r.state_id, none)
  | some l => (parseIds l).map (fun ids => (r.state_id, some ids))

/-! ## Route table (`routesData` in `state.ts`) -/

/-- The eleven operations of the registry. -/
inductive Op where
  | getEpochCommittees
  | getEpochSyncCommittees
  | getStateFinalityCheckpoints
  | getStateFork
  | getStateRoot
  | getStateRandao
  | getStateValidator
  | getStateValidators
  | postStateValidators
  | getStateValidatorBalances
  | postStateValidatorBalances
deriving DecidableEq, Fintype

/-- HTTP method of a route. -/
inductive HttpMethod where
  | GET
  | POST
deriving DecidableEq

/-- `{url, method}` route entry. -/
structure RouteDef where
  url : String
  method : HttpMethod
deriving DecidableEq

/-- `routesData`, entry for entry. -/
def routesData : Op → RouteDef
  | .getEpochCommittees => ⟨"/eth/v1/beacon/states/{state_id}/committees", .GET⟩
  | .getEpochSyncCommittees => ⟨"/eth/v1/beacon/states/{state_id}/sync_committees", .GET⟩
  | .getStateFinalityCheckpoints => ⟨"/eth/v1/beacon/states/{state_id}/finality_checkpoints", .GET⟩
  | .getStateFork => ⟨"/eth/v1/beacon/states/{state_id}/fork", .GET⟩
  | .getStateRoot => ⟨"/eth/v1/beacon/states/{state_id}/root", .GET⟩
  | .getStateRandao => ⟨"/eth/v1/beacon/states/{state_id}/randao", .GET⟩
  | .getStateValidator => ⟨"/eth/v1/beacon/states/{state_id}/validators/{validator_id}", .GET⟩
  | .getStateValidators => ⟨"/eth/v1/beacon/states/{state_id}/validators", .GET⟩
  | .postStateValidators => ⟨"/eth/v1/beacon/states/{state_id}/validators", .POST⟩
  | .getStateValidatorBalances => ⟨"/eth/v1/beacon/states/{state_id}/validator_balances", .GET⟩
  | .postStateValidatorBalances => ⟨"/eth/v1/beacon/states/{state_id}/validator_balances", .POST⟩

/-- The `Schema` field-descriptor vocabulary used by the serializers. -/
inductive SchemaKind where
  | StringRequired
  | Uint
  | UintOrStringArray
  | StringArray
  | Object
deriving DecidableEq

/-- Declarative request schema: named params and query descriptors plus an
optional body descriptor. -/
structure ReqSchema where
  params : List (String × SchemaKind)
  query : List (String × SchemaKind)
  body : Option SchemaKind
deriving DecidableEq

/-- The `schema` component of each entry of `getReqSerializers`, entry for
entry. -/
def reqSchemaOf : Op → ReqSchema
  | .getEpochCommittees =>
    ⟨[("state_id", .StringRequired)],
      [("slot", .Uint), ("epoch", .Uint), ("index", .Uint)], none⟩
  | .getEpochSyncCommittees =>
    ⟨[("state_id", .StringRequired)], [("epoch", .Uint)], none⟩
  | .getStateFinalityCheckpoints => ⟨[("state_id", .StringRequired)], [], none⟩
  | .getStateFork => ⟨[("state_id", .StringRequired)], [], none⟩
  | .getStateRoot => ⟨[("state_id", .StringRequired)], [], none⟩
  | .getStateRandao =>
    ⟨[("state_id", .StringRequired)], [("epoch", .Uint)], none⟩
  | .getStateValidator =>
    ⟨[("state_id", .StringRequired), ("validator_id", .StringRequired)], [], none⟩
  | .getStateValidators =>
    ⟨[("state_id", .StringRequired)],
      [("id", .UintOrStringArray), ("status", .StringArray)], none⟩
  | .postStateValidators =>
    ⟨[("state_id", .StringRequired)], [], some .Object⟩
  | .getStateValidatorBalances =>
    ⟨[("state_id", .StringRequired)], [("id", .UintOrStringArray)], none⟩
  | .postStateValidatorBalances =>
    ⟨[("state_id", .StringRequired)], [], some .UintOrStringArray⟩

/-- The nine distinct payload schemas built in `getReturnTypes`. -/
inductive PayloadSchema where
  | RootContainer
  | Fork
  | RandaoContainer
  | FinalityCheckpoints
  | ValidatorResponse
  | ValidatorResponseList
  | ValidatorBalanceList
  | EpochCommitteeResponseList
  | EpochSyncCommitteesResponse
deriving DecidableEq

/-- The payload schema assigned to each operation by `getReturnTypes` (each
one is wrapped by `WithFinalized(ContainerDataExecutionOptimistic(·))`). -/
def returnTypeOf : Op → PayloadSchema
  | .getStateRoot => .RootContainer
  | .getStateFork => .Fork
  | .getStateRandao => .RandaoContainer
  | .getStateFinalityCheckpoints => .FinalityCheckpoints
  | .getStateValidators => .ValidatorResponseList
  | .postStateValidators => .ValidatorResponseList
  | .getStateValidator => .ValidatorResponse
  | .getStateValidatorBalances => .ValidatorBalanceList
  | .postStateValidatorBalances => .ValidatorBalanceList
  | .getEpochCommittees => .EpochCommitteeResponseList
  | .getEpochSyncCommittees => .EpochSyncCommitteesResponse

/-! ## Round-trip helper lemmas -/

/-- A validator id that survives the POST wire round trip: a number in u64
range, or a string carrying the `0x` marker. -/
def wireSafeValidatorId : ValidatorId → Bool
  | .num n => decide (n < U64_LIMIT)
  | .str s => strStartsWith0x s

theorem strStartsWith0x_eq_false_of_all_digits (s : String)
    (h : s.data.all Char.isDigit = true) : strStartsWith0x s = false := by
  unfold strStartsWith0x
  split
  next heq =>
    rw [heq] at h
    simp only [List.all_cons, Bool.and_eq_true] at h
    exact absurd h.2.1 (by decide)
  next => rfl

theorem strStartsWith0x_toU64Str (n : Nat) : strStartsWith0x (toU64Str n) = false :=
  strStartsWith0x_eq_false_of_all_digits _ (natToDecChars_all_digits n)

theorem parseValidatorIdStr_roundtrip (v : ValidatorId) (h : wireSafeValidatorId v = true) :
    parseValidatorIdStr (validatorIdToU64Str v) = some v := by
  cases v with
  | str s =>
    simp only [wireSafeValidatorId] at h
    simp [validatorIdToU64Str, parseValidatorIdStr, h]
  | num n =>
    simp only [wireSafeValidatorId, decide_eq_true_eq] at h
    simp [validatorIdToU64Str, parseValidatorIdStr, strStartsWith0x_toU64Str,
      fromU64Str_toU64Str n h]

theorem parseIds_roundtrip (l : List ValidatorId)
    (h : ∀ v ∈ l, wireSafeValidatorId v = true) :
    parseIds (l.map validatorIdToU64Str) = some l := by
  induction l with
  | nil => rfl
  | cons v vs ih =>
    simp only [List.map_cons, parseIds]
    rw [parseValidatorIdStr_roundtrip v (h v (by simp)),
      ih (fun x hx => h x (by simp [hx]))]

/-! ## Claim C1: request round-trip law -/

/-- C1 (counterexample): the round-trip law `parseReq(writeReq(args)) == args`
fails on the code as stated.  Three concrete failures: a numeric stateId given
to the stateId-only serializer (shared by getStateFinalityCheckpoints,
getStateFork, getStateRoot) comes back as the decimal string; an absent
balances list comes back as the explicitly-present empty list; and a decimal
string validator id comes back as a number. -/
theorem C1_roundtrip_counterexample :
    stateIdOnlyReq_parseReq (stateIdOnlyReq_writeReq (.num 5)) ≠ .num 5 ∧
    postStateValidatorBalances_parseReq
        (postStateValidatorBalances_writeReq (.str "head") none) ≠
      some (.str "head", none) ∧
    postStateValidators_parseReq
        (postStateValidators_writeReq (.str "head") (some ⟨some [.str "42"], none⟩)) ≠
      some (.str "head", some ⟨some [.str "42"], none⟩) :=
  ⟨by decide, by decide, by decide⟩

/-- C1 (amended): for every operation of the registry the round trip
`parseReq(writeReq(args)) = args` holds for every accepted argument tuple in
which (i) a stateId handed to the three stateId-only operations is in textual
form, (ii) optional filter/id arguments are explicitly present, and (iii)
validator ids sent through the two POST bodies are numbers below `2^64` or
`0x`-prefixed strings.  The stateId-only conjunct covers
getStateFinalityCheckpoints, getStateFork and getStateRoot, which share the
`stateIdOnlyReq` serializer in the source. -/
theorem C1_roundtrip_amended :
    (∀ s f, getEpochCommittees_parseReq (getEpochCommittees_writeReq s (some f)) =
      (s, some f)) ∧
    (∀ s e, getEpochSyncCommittees_parseReq (getEpochSyncCommittees_writeReq s e) = (s, e)) ∧
    (∀ t, stateIdOnlyReq_parseReq (stateIdOnlyReq_writeReq (.str t)) = .str t) ∧
    (∀ s e, getStateRandao_parseReq (getStateRandao_writeReq s e) = (s, e)) ∧
    (∀ s v, getStateValidator_parseReq (getStateValidator_writeReq s v) = (s, v)) ∧
    (∀ s f, getStateValidators_parseReq (getStateValidators_writeReq s (some f)) =
      (s, some f)) ∧
    (∀ s f, (∀ v ∈ f.id.getD [], wireSafeValidatorId v = true) →
      postStateValidators_parseReq (postStateValidators_writeReq s (some f)) =
        some (s, some f)) ∧
    (∀ s ids, getStateValidatorBalances_parseReq (getStateValidatorBalances_writeReq s ids) =
      (s, ids)) ∧
    (∀ s l, (∀ v ∈ l, wireSafeValidatorId v = true) →
      postStateValidatorBalances_parseReq (postStateValidatorBalances_writeReq s (some l)) =
        some (s, some l)) := by
  refine ⟨fun s f => rfl, fun s e => rfl, fun t => rfl, fun s e => rfl, fun s v => rfl,
    fun s f => rfl, ?_, fun s ids => rfl, ?_⟩
  · rintro s ⟨fid, fst⟩ h
    cases fid with
    | none => rfl
    | some l =>
      show (parseIds (l.map validatorIdToU64Str)).map _ = _
      rw [parseIds_roundtrip l (by simpa using h)]
      rfl
  · intro s l h
    show (parseIds (l.map validatorIdToU64Str)).map _ = _
    rw [parseIds_roundtrip l h]
    rfl

/-- C1 amended, instantiated: both hypothesis-bearing conjuncts evaluated at a
concrete filtered query. -/
theorem C1_roundtrip_amended_witness :
    postStateValidators_parseReq
        (postStateValidators_writeReq (.str "head")
          (some ⟨some [.num 42, .str "0xaa"], some [.active_ongoing]⟩)) =
      some (.str "head", some ⟨some [.num 42, .str "0xaa"], some [.active_ongoing]⟩) ∧
    postStateValidatorBalances_parseReq
        (postStateValidatorBalances_writeReq (.str "genesis") (some [.num 7])) =
      some (.str "genesis", some [.num 7]) :=
  ⟨C1_roundtrip_amended.2.2.2.2.2.2.1 (.str "head") ⟨some [.num 42, .str "0xaa"],
      some [.active_ongoing]⟩ (by decide),
    C1_roundtrip_amended.2.2.2.2.2.2.2.2 (.str "genesis") [.num 7] (by decide)⟩

/-! ## Claim C2: GET and POST variants parse to the same domain tuple -/

/-- C2 (counterexample): for the filter `{id: ["42"]}` the GET variant parses
back the decimal string verbatim while the POST variant converts it to the
number 42, so the two parseReq results differ; same for the balances pair. -/
theorem C2_getpost_counterexample :
    postStateValidators_parseReq
        (postStateValidators_writeReq (.str "finalized") (some ⟨some [.str "42"], none⟩)) ≠
      some (getStateValidators_parseReq
        (getStateValidators_writeReq (.str "finalized") (some ⟨some [.str "42"], none⟩))) ∧
    postStateValidatorBalances_parseReq
        (postStateValidatorBalances_writeReq (.str "finalized") (some [.str "7"])) ≠
      some (getStateValidatorBalances_parseReq
        (getStateValidatorBalances_writeReq (.str "finalized") (some [.str "7"]))) :=
  ⟨by decide, by decide⟩

/-- C2 (amended): the GET and POST validator-query variants parse to an
identical domain-argument tuple for every stateId and every filter whose ids
are numbers below `2^64` or `0x`-prefixed strings, and likewise the two
validator-balances variants for every such id list. -/
theorem C2_getpost_agree (s : StateId) :
    (∀ f : Option ValidatorFilters,
      (∀ v ∈ (f.bind (·.id)).getD [], wireSafeValidatorId v = true) →
      postStateValidators_parseReq (postStateValidators_writeReq s f) =
        some (getStateValidators_parseReq (getStateValidators_writeReq s f))) ∧
    (∀ l : List ValidatorId, (∀ v ∈ l, wireSafeValidatorId v = true) →
      postStateValidatorBalances_parseReq (postStateValidatorBalances_writeReq s (some l)) =
        some (getStateValidatorBalances_parseReq
          (getStateValidatorBalances_writeReq s (some l)))) := by
  constructor
  · rintro (_ | ⟨fid, fst⟩) h
    · rfl
    · cases fid with
      | none => rfl
      | some l =>
        show (parseIds (l.map validatorIdToU64Str)).map _ = _
        rw [parseIds_roundtrip l (by simpa using h)]
        rfl
  · intro l h
    show (parseIds (l.map validatorIdToU64Str)).map _ = _
    rw [parseIds_roundtrip l h]
    rfl

/-- C2 amended, instantiated at a concrete stateId, filter and id list. -/
theorem C2_getpost_agree_witness :
    postStateValidators_parseReq
        (postStateValidators_writeReq (.str "justified") (some ⟨some [.num 1], none⟩)) =
      some (getStateValidators_parseReq
        (getStateValidators_writeReq (.str "justified") (some ⟨some [.num 1], none⟩))) ∧
    postStateValidatorBalances_parseReq
        (postStateValidatorBalances_writeReq (.str "justified") (some [.num 2])) =
      some (getStateValidatorBalances_parseReq
        (getStateValidatorBalances_writeReq (.str "justified") (some [.num 2]))) :=
  ⟨(C2_getpost_agree (.str "justified")).1 (some ⟨some [.num 1], none⟩) (by decide),
    (C2_getpost_agree (.str "justified")).2 [.num 2] (by decide)⟩

/-! ## Claim C7: validator id classification by `0x` prefix -/

/-- C7: inside the POST bodies a validator id string is classified purely by
the `0x` prefix: any `0x`-prefixed string is kept verbatim as a public-key
string, a decimal string is decoded to a number through the large-integer
codec (`"42"` to `Index(42)` in particular), and both POST parseReq
serializers apply this classifier to every element of their id lists. -/
theorem C7_validatorid_classification :
    (∀ s : String, strStartsWith0x s = true → parseValidatorIdStr s = some (.str s)) ∧
    parseValidatorIdStr "42" = some (.num 42) ∧
    (∀ s n, fromU64Str s = some n → strStartsWith0x s = false →
      parseValidatorIdStr s = some (.num n)) ∧
    (∀ st ids statuses,
      postStateValidators_parseReq ⟨st, ⟨some ids, statuses⟩⟩ =
        (parseIds ids).map (fun l => (st, some ⟨some l, statuses⟩))) ∧
    (∀ st ids, postStateValidatorBalances_parseReq ⟨st, some ids⟩ =
      (parseIds ids).map (fun l => (st, some l))) := by
  refine ⟨?_, by decide, ?_, fun st ids statuses => rfl, fun st ids => rfl⟩
  · intro s h
    simp [parseValidatorIdStr, h]
  · intro s n hn h
    simp [parseValidatorIdStr, h, hn]

/-- C7 instantiated: a concrete `0x` string kept verbatim and a concrete
decimal string decoded as an index. -/
theorem C7_validatorid_classification_witness :
    parseValidatorIdStr "0xabc" = some (.str "0xabc") ∧
    parseValidatorIdStr "7" = some (.num 7) :=
  ⟨C7_validatorid_classification.1 "0xabc" (by decide),
    C7_validatorid_classification.2.2.1 "7" 7 (by decide) (by decide)⟩

/-! ## Claim C8: scenario A, concrete POST filter round trip -/

/-- C8: `postStateValidators.writeReq` on the filter
`{id: [42, "0xaa"], status: ["active_ongoing"]}` produces exactly the body
`{ids: ["42", "0xaa"], statuses: ["active_ongoing"]}`, and `parseReq` on that
body reproduces the original filter object exactly. -/
theorem C8_scenarioA :
    postStateValidators_writeReq (.str "head")
        (some ⟨some [.num 42, .str "0xaa"], some [.active_ongoing]⟩) =
      ⟨.str "head", ⟨some [toU64Str 42, "0xaa"], some [.active_ongoing]⟩⟩ ∧
    toU64Str 42 = "42" ∧
    postStateValidators_parseReq
        ⟨.str "head", ⟨some ["42", "0xaa"], some [.active_ongoing]⟩⟩ =
      some (.str "head", some ⟨some [.num 42, .str "0xaa"], some [.active_ongoing]⟩) :=
  ⟨by decide, by decide, by decide⟩

/-! ## Claim C9: registry totality, methods, and route distinctness -/

/-- C9: the route table, the request schemas and the return types are total
over the eleven operations (each is a function out of `Op`, witnessed by
evaluation at every operation), every route's method is GET or POST, and no
two distinct operations share the same `(url, method)` route entry. -/
theorem C9_registry :
    (∀ o : Op, ∃ r s p, routesData o = r ∧ reqSchemaOf o = s ∧ returnTypeOf o = p) ∧
    (∀ o : Op, (routesData o).method = .GET ∨ (routesData o).method = .POST) ∧
    (∀ o1 o2 : Op, o1 ≠ o2 → routesData o1 ≠ routesData o2) :=
  ⟨fun o => ⟨_, _, _, rfl, rfl, rfl⟩, by decide, by decide⟩

/-- C9 instantiated: the GET/POST validator routes are distinct operations
with distinct route entries (same URL, different method). -/
theorem C9_registry_witness :
    routesData .getStateValidators ≠ routesData .postStateValidators :=
  C9_registry.2.2 .getStateValidators .postStateValidators (by decide)

/-! ## Claim C10: absent filters become explicitly empty containers -/

/-- C10: an absent filter is normalized to the explicitly empty container on
the wire — `postStateValidatorBalances.writeReq` with no indices produces the
empty body array, `getStateValidators.writeReq` and
`getEpochCommittees.writeReq` with no filters produce the empty query object —
so an absent and an explicitly empty filter yield identical wire requests,
and parseReq hands back the (present) empty container, never absence. -/
theorem C10_absent_filters_normalized (s : StateId) :
    postStateValidatorBalances_writeReq s none = ⟨s, some []⟩ ∧
    postStateValidatorBalances_writeReq s (some []) = ⟨s, some []⟩ ∧
    getStateValidators_writeReq s none = ⟨s, ⟨none, none⟩⟩ ∧
    getStateValidators_writeReq s (some ⟨none, none⟩) = ⟨s, ⟨none, none⟩⟩ ∧
    getEpochCommittees_writeReq s none = ⟨s, ⟨none, none, none⟩⟩ ∧
    getEpochCommittees_writeReq s (some ⟨none, none, none⟩) = ⟨s, ⟨none, none, none⟩⟩ ∧
    postStateValidatorBalances_parseReq ⟨s, some []⟩ = some (s, some []) ∧
    getStateValidators_parseReq ⟨s, ⟨none, none⟩⟩ = (s, some ⟨none, none⟩) ∧
    getEpochCommittees_parseReq ⟨s, ⟨none, none, none⟩⟩ = (s, some ⟨none, none, none⟩) :=
  ⟨rfl, rfl, rfl, rfl, rfl, rfl, rfl, rfl, rfl⟩

/-! ## Claim C3: large-integer wire codec -/

/-- C3: `fromU64Str(toU64Str(n)) = n` for every `n` below `2^64`, and
`fromU64Str` fails exactly on malformed input: an empty or non-digit string, a
leading zero other than the literal `"0"`, or a value at or above `2^64`; in
particular `"01"`, `"-1"`, `"abc"` and `"18446744073709551616"` are rejected. -/
theorem C3_u64_codec :
    (∀ n, n < U64_LIMIT → fromU64Str (toU64Str n) = some n) ∧
    (∀ s : String, fromU64Str s = none ↔
      (s.data = [] ∨ (s.data.all Char.isDigit) = false ∨
        (s.data.head? = some '0' ∧ 1 < s.data.length) ∨
        U64_LIMIT ≤ decValBE s.data)) ∧
    fromU64Str "01" = none ∧
    fromU64Str "-1" = none ∧
    fromU64Str "abc" = none ∧
    fromU64Str "18446744073709551616" = none :=
  ⟨fromU64Str_toU64Str, fromU64Str_eq_none_iff, by decide, by decide, by decide, by decide⟩

/-- C3 instantiated at the largest 64-bit value. -/
theorem C3_u64_codec_witness :
    fromU64Str (toU64Str 18446744073709551615) = some 18446744073709551615 :=
  C3_u64_codec.1 18446744073709551615 (by decide)

/-! ## Claim C6: StateId literal classification -/

/-- Syntactic classification of a StateId literal. -/
inductive StateIdClass where
  | aliasOf (s : String)
  | slot (n : Nat)
  | root (s : String)
deriving DecidableEq

/-- Hexadecimal digit test. -/
def isHexDigitChar (c : Char) : Bool :=
  c.isDigit || ('a' ≤ c && c ≤ 'f') || ('A' ≤ c && c ≤ 'F')

/-- Modelled from the spec: the StateId literal grammar.  The classification
itself runs at the external handler boundary (not under the provided sources;
`state.ts` only declares the `StateId` type and a required-string schema):
one of the four alias words; else a `0x`-prefixed literal that must be a
66-character hex string to be a Root; else a canonical decimal
unsigned-integer string is a Slot; anything else is malformed. -/
def parseStateId (s : String) : Option StateIdClass :=
  if s = "head" ∨ s = "genesis" ∨ s = "finalized" ∨ s = "justified" then
    some (.aliasOf s)
  else if strStartsWith0x s = true then
    if s.data.length = 66 ∧ (s.data.drop 2).all isHexDigitChar = true then some (.root s)
    else none
  else (fromU64Str s).map .slot

/-- C6: the four alias words classify as aliases, `"12345"` classifies as
Slot(12345), every 66-character `0x`-prefixed hex string classifies as a Root
kept verbatim, and a 66-character `0x` literal with non-hex characters (for
example `"0xZZ…Z"`) is rejected as malformed, independently of any operation. -/
theorem C6_stateid_classification :
    parseStateId "head" = some (.aliasOf "head") ∧
    parseStateId "genesis" = some (.aliasOf "genesis") ∧
    parseStateId "finalized" = some (.aliasOf "finalized") ∧
    parseStateId "justified" = some (.aliasOf "justified") ∧
    parseStateId "12345" = some (.slot 12345) ∧
    (∀ s : String, strStartsWith0x s = true → s.data.length = 66 →
      (s.data.drop 2).all isHexDigitChar = true → parseStateId s = some (.root s)) ∧
    parseStateId "0xZZZZZZZZZZZZZZZZZZZZZZZZZZZZZZZZZZZZZZZZZZZZZZZZZZZZZZZZZZZZZZZZ" =
      none := by
  refine ⟨by decide, by decide, by decide, by decide, by decide, ?_, by decide⟩
  intro s hpre hlen hhex
  have hne : ¬(s = "head" ∨ s = "genesis" ∨ s = "finalized" ∨ s = "justified") := by
    rintro (rfl | rfl | rfl | rfl) <;> exact absurd hpre (by decide)
  rw [parseStateId, if_neg hne, if_pos hpre, if_pos ⟨hlen, hhex⟩]

/-- C6 instantiated: a concrete 66-character root literal. -/
theorem C6_stateid_classification_witness :
    parseStateId "0x0000000000000000000000000000000000000000000000000000000000000000" =
      some (.root "0x0000000000000000000000000000000000000000000000000000000000000000") :=
  C6_stateid_classification.2.2.2.2.2.1
    "0x0000000000000000000000000000000000000000000000000000000000000000"
    (by decide) (by decide) (by decide)

/-! ## JSON value model -/

/-- JSON values, as far as the response payloads need them: the JSON rendering
of the schemas uses decimal strings for integers, `0x` hex strings for byte
sequences, booleans, arrays and objects. -/
inductive Json where
  | str (s : String)
  | bool (b : Bool)
  | arr (l : List Json)
  | obj (fields : List (String × Json))

/-- Object projection. -/
def asObj : Json → Option (List (String × Json))
  | .obj fields => some fields
  | _ => none

/-- Array projection. -/
def asArr : Json → Option (List Json)
  | .arr l => some l
  | _ => none

/-- First binding of key `k`. -/
def jsonLookup (fields : List (String × Json)) (k : String) : Option Json :=
  match fields with
  | [] => none
  | (k', v) :: rest => if k' = k then some v else jsonLookup rest k

/-! ## Claim C5: optimistic/finalized envelope -/

/-- Modelled from the spec: the uniform envelope produced by
`WithFinalized(ContainerDataExecutionOptimistic(·))` (combinators in
`utils/`, outside the provided sources).  JSON form:
`{data, execution_optimistic, finalized}`. -/
def envelopeToJson (data : Json) (executionOptimistic finalized : Bool) : Json :=
  .obj [("data", data), ("execution_optimistic", .bool executionOptimistic),
    ("finalized", .bool finalized)]

/-- A missing or non-boolean metadata field decodes as `false`. -/
def boolOrFalse : Option Json → Bool
  | some (.bool b) => b
  | _ => false

/-- Modelled from the spec: envelope decoding — the payload is required, the
`execution_optimistic` and `finalized` fields default to `false` when absent. -/
def envelopeFromJson (j : Json) : Option (Json × Bool × Bool) :=
  (asObj j).bind fun fields =>
  (jsonLookup fields "data").map fun d =>
  (d, boolOrFalse (jsonLookup fields "execution_optimistic"),
    boolOrFalse (jsonLookup fields "finalized"))

/-- C5: wrapping any payload in the optimistic/finalized envelope and
unwrapping yields the original payload together with its two metadata bits,
and on decode an absent `execution_optimistic` field and an absent `finalized`
field each default to `false`.  The payload is universally quantified, so this
applies uniformly to every operation's payload schema (see `returnTypeOf`). -/
theorem C5_envelope :
    (∀ (d : Json) (eo fin : Bool),
      envelopeFromJson (envelopeToJson d eo fin) = some (d, eo, fin)) ∧
    (∀ d : Json, envelopeFromJson (.obj [("data", d)]) = some (d, false, false)) ∧
    (∀ o : Op, ∃ p, returnTypeOf o = p) :=
  ⟨fun _ _ _ => rfl, fun _ => rfl, fun _ => ⟨_, rfl⟩⟩

/-! ## Response payload values (schemas from `getReturnTypes` in `state.ts`) -/

/-- Byte sequences are lists of naturals below 256. -/
abbrev Bytes := List Nat

/-- `ssz.phase0.Checkpoint`: `{epoch: uint64, root: Bytes32}`. -/
structure Checkpoint where
  epoch : Nat
  root : Bytes
deriving DecidableEq

/-- `ssz.phase0.Fork`: `{previousVersion: Bytes4, currentVersion: Bytes4, epoch: uint64}`. -/
structure Fork where
  previousVersion : Bytes
  currentVersion : Bytes
  epoch : Nat
deriving DecidableEq

/-- `ssz.phase0.Validator`: eight fixed-size fields. -/
structure Validator where
  pubkey : Bytes
  withdrawalCredentials : Bytes
  effectiveBalance : Nat
  slashed : Bool
  activationEligibilityEpoch : Nat
  activationEpoch : Nat
  exitEpoch : Nat
  withdrawableEpoch : Nat
deriving DecidableEq

/-- The `FinalityCheckpoints` container of `getReturnTypes`. -/
structure FinalityCheckpoints where
  previousJustified : Checkpoint
  currentJustified : Checkpoint
  finalized : Checkpoint
deriving DecidableEq

/-- The `ValidatorResponse` container of `getReturnTypes` (its `status` field
is a string type whose conformant values are the ten status names). -/
structure ValidatorResponse where
  index : Nat
  balance : Nat
  status : ValidatorStatus
  validator : Validator
deriving DecidableEq

/-- The `ValidatorBalance` container of `getReturnTypes`. -/
structure ValidatorBalance where
  index : Nat
  balance : Nat
deriving DecidableEq

/-- The `EpochCommitteeResponse` container of `getReturnTypes`. -/
structure EpochCommitteeResponse where
  index : Nat
  slot : Nat
  validators : List Nat
deriving DecidableEq

/-- The `EpochSyncCommitteesResponse` container of `getReturnTypes`. -/
structure EpochSyncCommitteesResponse where
  validators : List Nat
  validatorAggregates : List (List Nat)
deriving DecidableEq

/-- The `RootContainer` of `getReturnTypes`: `{root: Root}`. -/
structure RootContainer where
  root : Bytes
deriving DecidableEq

/-- The `RandaoContainer` of `getReturnTypes`: `{randao: Root}`. -/
structure RandaoContainer where
  randao : Bytes
deriving DecidableEq

/-! ### Conformance to the schemas -/

/-- A byte. -/
def isByte (b : Nat) : Bool := decide (b < 256)

/-- A byte vector of exactly `n` bytes. -/
def isBytesLen (n : Nat) (bs : Bytes) : Bool := decide (bs.length = n) && bs.all isByte

/-- A 64-bit unsigned value. -/
def isU64 (n : Nat) : Bool := decide (n < U64_LIMIT)

/-- A u64 list within the (generous) length limit `2^32` of the schema. -/
def isU64List (l : List Nat) : Bool := decide (l.length < 4294967296) && l.all isU64

def conformantCheckpoint (c : Checkpoint) : Bool :=
  isU64 c.epoch && isBytesLen 32 c.root

def conformantFork (f : Fork) : Bool :=
  isBytesLen 4 f.previousVersion && isBytesLen 4 f.currentVersion && isU64 f.epoch

def conformantValidator (v : Validator) : Bool :=
  isBytesLen 48 v.pubkey && isBytesLen 32 v.withdrawalCredentials &&
    isU64 v.effectiveBalance && isU64 v.activationEligibilityEpoch &&
    isU64 v.activationEpoch && isU64 v.exitEpoch && isU64 v.withdrawableEpoch

def conformantFinalityCheckpoints (f : FinalityCheckpoints) : Bool :=
  conformantCheckpoint f.previousJustified && conformantCheckpoint f.currentJustified &&
    conformantCheckpoint f.finalized

def conformantValidatorResponse (v : ValidatorResponse) : Bool :=
  isU64 v.index && isU64 v.balance && conformantValidator v.validator

def conformantValidatorBalance (v : ValidatorBalance) : Bool :=
  isU64 v.index && isU64 v.balance

def conformantEpochCommitteeResponse (e : EpochCommitteeResponse) : Bool :=
  isU64 e.index && isU64 e.slot && isU64List e.validators

def conformantEpochSyncCommitteesResponse (e : EpochSyncCommitteesResponse) : Bool :=
  isU64List e.validators && decide (e.validatorAggregates.length < 4294967296) &&
    e.validatorAggregates.all isU64List

def conformantRootContainer (c : RootContainer) : Bool := isBytesLen 32 c.root

def conformantRandaoContainer (c : RandaoContainer) : Bool := isBytesLen 32 c.randao

def conformantValidatorResponseList (l : List ValidatorResponse) : Bool :=
  decide (l.length < 4294967296) && l.all conformantValidatorResponse

def conformantValidatorBalanceList (l : List ValidatorBalance) : Bool :=
  decide (l.length < 4294967296) && l.all conformantValidatorBalance

def conformantEpochCommitteeResponseList (l : List EpochCommitteeResponse) : Bool :=
  decide (l.length < 4294967296) && l.all conformantEpochCommitteeResponse

/-! ## Compact binary rendering: primitives

Modelled from the spec (the SSZ `ContainerType`/`ArrayOf` machinery lives in
`@chainsafe/ssz`, outside the provided sources): fixed-size fields are packed
in declaration order; every variable-size field contributes an offset word in
the fixed region and its bytes in the trailing variable region; lists of
fixed-size elements are raw concatenations whose count is implied by the byte
length; lists of variable-size elements carry a count word and a byte-length
word per element.  All words are 8-byte little-endian. -/

/-- Concatenation of chunks. -/
def concatAll {α : Type} : List (List α) → List α
  | [] => []
  | x :: xs => x ++ concatAll xs

/-- Split `k` bytes off the front, failing when fewer remain. -/
def takeBytes : Nat → List Nat → Option (List Nat × List Nat)
  | 0, l => some ([], l)
  | _ + 1, [] => none
  | k + 1, b :: l => (takeBytes k l).map (fun p => (b :: p.1, p.2))

/-- Fixed-width little-endian byte rendering. -/
def encodeLE : Nat → Nat → List Nat
  | 0, _ => []
  | k + 1, n => n % 256 :: encodeLE k (n / 256)

/-- Little-endian byte-list value. -/
def decodeLE : List Nat → Nat
  | [] => 0
  | b :: bs => b + 256 * decodeLE bs

/-- 8-byte little-endian word. -/
def encodeU64 (n : Nat) : List Nat := encodeLE 8 n

/-- Read an 8-byte little-endian word. -/
def parseU64 (l : List Nat) : Option (Nat × List Nat) :=
  (takeBytes 8 l).map (fun p => (decodeLE p.1, p.2))

/-- Single-byte boolean. -/
def encodeBool (b : Bool) : List Nat := [if b then 1 else 0]

/-- Read a single-byte boolean (strict: only 0 and 1 decode). -/
def parseBool : List Nat → Option (Bool × List Nat)
  | 0 :: rest => some (false, rest)
  | 1 :: rest => some (true, rest)
  | _ => none

theorem takeBytes_append (bs rest : List Nat) :
    takeBytes bs.length (bs ++ rest) = some (bs, rest) := by
  induction bs with
  | nil => rfl
  | cons b l ih => simp [takeBytes, ih]

theorem encodeLE_length (k n : Nat) : (encodeLE k n).length = k := by
  induction k generalizing n with
  | zero => rfl
  | succ k ih => simp [encodeLE, ih]

theorem mod_mul_split (n M : Nat) (hM : 0 < M) :
    n % (256 * M) = n % 256 + 256 * (n / 256 % M) := by
  have h1 : n % 256 < 256 := Nat.mod_lt _ (by omega)
  have h2 : n / 256 % M < M := Nat.mod_lt _ hM
  conv_lhs => rw [← Nat.div_add_mod n 256]
  have e2 : n % 256 % (256 * M) = n % 256 := Nat.mod_eq_of_lt (by omega)
  rw [Nat.add_mod, Nat.mul_mod_mul_left, e2]
  rw [Nat.mod_eq_of_lt (show 256 * (n / 256 % M) + n % 256 < 256 * M by omega)]
  omega

theorem decodeLE_encodeLE (k n : Nat) : decodeLE (encodeLE k n) = n % 256 ^ k := by
  induction k generalizing n with
  | zero => simp [encodeLE, decodeLE, Nat.mod_one]
  | succ k ih =>
    show (n % 256) + 256 * decodeLE (encodeLE k (n / 256)) = n % 256 ^ (k + 1)
    rw [ih, pow_succ']
    exact (mod_mul_split n (256 ^ k) (by positivity)).symm

theorem parseU64_encodeU64 (n : Nat) (h : n < U64_LIMIT) (rest : List Nat) :
    parseU64 (encodeU64 n ++ rest) = some (n, rest) := by
  unfold parseU64 encodeU64
  have ht := takeBytes_append (encodeLE 8 n) rest
  rw [encodeLE_length] at ht
  rw [ht]
  have h8 : n < 256 ^ 8 := by
    unfold U64_LIMIT at h
    norm_num
    omega
  show some (decodeLE (encodeLE 8 n), rest) = some (n, rest)
  rw [decodeLE_encodeLE, Nat.mod_eq_of_lt h8]

theorem parseBool_encodeBool (b : Bool) (rest : List Nat) :
    parseBool (encodeBool b ++ rest) = some (b, rest) := by
  cases b <;> rfl

theorem encodeU64_length (n : Nat) : (encodeU64 n).length = 8 := encodeLE_length 8 n

theorem concatAll_length_const {α : Type} (enc : α → List Nat) (k : Nat) (l : List α)
    (h : ∀ x ∈ l, (enc x).length = k) :
    (concatAll (l.map enc)).length = k * l.length := by
  induction l with
  | nil => simp [concatAll]
  | cons x xs ih =>
    simp only [List.map_cons, concatAll, List.length_append, List.length_cons]
    rw [h x (by simp), ih (fun y hy => h y (by simp [hy]))]
    ring

theorem isU64_lt {n : Nat} (h : isU64 n = true) : n < U64_LIMIT := by
  simpa [isU64] using h

theorem takeBytes_of_isBytesLen {n : Nat} {bs : Bytes} (h : isBytesLen n bs = true)
    (rest : List Nat) : takeBytes n (bs ++ rest) = some (bs, rest) := by
  have hl : bs.length = n := by
    simp only [isBytesLen, Bool.and_eq_true, decide_eq_true_eq] at h
    exact h.1
  rw [← hl]
  exact takeBytes_append bs rest

/-! ### Fixed-size pieces: Checkpoint, Fork, Validator, ValidatorBalance -/

/-- Binary rendering of a Checkpoint (40 fixed bytes). -/
def encodeBinCheckpoint (c : Checkpoint) : List Nat := encodeU64 c.epoch ++ c.root

/-- Read a Checkpoint off the front. -/
def parseCheckpoint (l : List Nat) : Option (Checkpoint × List Nat) :=
  (parseU64 l).bind fun p1 =>
  (takeBytes 32 p1.2).map fun p2 => (⟨p1.1, p2.1⟩, p2.2)

theorem parseCheckpoint_encode (c : Checkpoint) (h : conformantCheckpoint c = true)
    (rest : List Nat) : parseCheckpoint (encodeBinCheckpoint c ++ rest) = some (c, rest) := by
  simp only [conformantCheckpoint, Bool.and_eq_true] at h
  unfold parseCheckpoint encodeBinCheckpoint
  rw [List.append_assoc, parseU64_encodeU64 _ (isU64_lt h.1) _]
  simp only [Option.some_bind]
  rw [takeBytes_of_isBytesLen h.2]
  simp only [Option.map_some']

/-- Binary rendering of a Fork (16 fixed bytes). -/
def encodeBinFork (f : Fork) : List Nat :=
  f.previousVersion ++ f.currentVersion ++ encodeU64 f.epoch

/-- Read a Fork off the front. -/
def parseFork (l : List Nat) : Option (Fork × List Nat) :=
  (takeBytes 4 l).bind fun p1 =>
  (takeBytes 4 p1.2).bind fun p2 =>
  (parseU64 p2.2).map fun p3 => (⟨p1.1, p2.1, p3.1⟩, p3.2)

theorem parseFork_encode (f : Fork) (h : conformantFork f = true)
    (rest : List Nat) : parseFork (encodeBinFork f ++ rest) = some (f, rest) := by
  simp only [conformantFork, Bool.and_eq_true] at h
  unfold parseFork encodeBinFork
  rw [List.append_assoc, List.append_assoc, takeBytes_of_isBytesLen h.1.1]
  simp only [Option.some_bind]
  rw [takeBytes_of_isBytesLen h.1.2]
  simp only [Option.some_bind]
  rw [parseU64_encodeU64 _ (isU64_lt h.2)]
  simp only [Option.map_some']

/-- Binary rendering of a Validator (121 fixed bytes). -/
def encodeBinValidator (v : Validator) : List Nat :=
  v.pubkey ++ v.withdrawalCredentials ++ encodeU64 v.effectiveBalance ++
    encodeBool v.slashed ++ encodeU64 v.activationEligibilityEpoch ++
    encodeU64 v.activationEpoch ++ encodeU64 v.exitEpoch ++ encodeU64 v.withdrawableEpoch

/-- Read a Validator off the front. -/
def parseValidator (l : List Nat) : Option (Validator × List Nat) :=
  (takeBytes 48 l).bind fun p1 =>
  (takeBytes 32 p1.2).bind fun p2 =>
  (parseU64 p2.2).bind fun p3 =>
  (parseBool p3.2).bind fun p4 =>
  (parseU64 p4.2).bind fun p5 =>
  (parseU64 p5.2).bind fun p6 =>
  (parseU64 p6.2).bind fun p7 =>
  (parseU64 p7.2).map fun p8 =>
    (⟨p1.1, p2.1, p3.1, p4.1, p5.1, p6.1, p7.1, p8.1⟩, p8.2)

theorem parseValidator_encode (v : Validator) (h : conformantValidator v = true)
    (rest : List Nat) : parseValidator (encodeBinValidator v ++ rest) = some (v, rest) := by
  simp only [conformantValidator, Bool.and_eq_true] at h
  obtain ⟨⟨⟨⟨⟨⟨h1, h2⟩, h3⟩, h4⟩, h5⟩, h6⟩, h7⟩ := h
  unfold parseValidator encodeBinValidator
  simp only [List.append_assoc]
  rw [takeBytes_of_isBytesLen h1]
  simp only [Option.some_bind]
  rw [takeBytes_of_isBytesLen h2]
  simp only [Option.some_bind]
  rw [parseU64_encodeU64 _ (isU64_lt h3)]
  simp only [Option.some_bind]
  rw [parseBool_encodeBool]
  simp only [Option.some_bind]
  rw [parseU64_encodeU64 _ (isU64_lt h4)]
  simp only [Option.some_bind]
  rw [parseU64_encodeU64 _ (isU64_lt h5)]
  simp only [Option.some_bind]
  rw [parseU64_encodeU64 _ (isU64_lt h6)]
  simp only [Option.some_bind]
  rw [parseU64_encodeU64 _ (isU64_lt h7)]
  simp only [Option.map_some']

/-- Binary rendering of a ValidatorBalance (16 fixed bytes). -/
def encodeBinValidatorBalance (v : ValidatorBalance) : List Nat :=
  encodeU64 v.index ++ encodeU64 v.balance

/-- Read a ValidatorBalance off the front. -/
def parseValidatorBalance (l : List Nat) : Option (ValidatorBalance × List Nat) :=
  (parseU64 l).bind fun p1 =>
  (parseU64 p1.2).map fun p2 => (⟨p1.1, p2.1⟩, p2.2)

theorem parseValidatorBalance_encode (v : ValidatorBalance)
    (h : conformantValidatorBalance v = true) (rest : List Nat) :
    parseValidatorBalance (encodeBinValidatorBalance v ++ rest) = some (v, rest) := by
  simp only [conformantValidatorBalance, Bool.and_eq_true] at h
  unfold parseValidatorBalance encodeBinValidatorBalance
  rw [List.append_assoc, parseU64_encodeU64 _ (isU64_lt h.1)]
  simp only [Option.some_bind]
  rw [parseU64_encodeU64 _ (isU64_lt h.2)]
  simp only [Option.map_some']

/-! ### Status strings -/

/-- Wire string of a validator status. -/
def statusStr : ValidatorStatus → String
  | .active => "active"
  | .pending_initialized => "pending_initialized"
  | .pending_queued => "pending_queued"
  | .active_ongoing => "active_ongoing"
  | .active_exiting => "active_exiting"
  | .active_slashed => "active_slashed"
  | .exited_unslashed => "exited_unslashed"
  | .exited_slashed => "exited_slashed"
  | .withdrawal_possible => "withdrawal_possible"
  | .withdrawal_done => "withdrawal_done"

/-- Parse a status name. -/
def statusFromStr (s : String) : Option ValidatorStatus :=
  if s = "active" then some .active
  else if s = "pending_initialized" then some .pending_initialized
  else if s = "pending_queued" then some .pending_queued
  else if s = "active_ongoing" then some .active_ongoing
  else if s = "active_exiting" then some .active_exiting
  else if s = "active_slashed" then some .active_slashed
  else if s = "exited_unslashed" then some .exited_unslashed
  else if s = "exited_slashed" then some .exited_slashed
  else if s = "withdrawal_possible" then some .withdrawal_possible
  else if s = "withdrawal_done" then some .withdrawal_done
  else none

theorem statusFromStr_statusStr (v : ValidatorStatus) :
    statusFromStr (statusStr v) = some v := by
  cases v <;> decide

/-- ASCII bytes of the status name (its binary rendering inside the variable
region of a `ValidatorResponse`). -/
def statusBytes (v : ValidatorStatus) : List Nat := (statusStr v).data.map Char.toNat

/-- Recognize a status from its ASCII bytes. -/
def statusFromBytes (l : List Nat) : Option ValidatorStatus :=
  if l = statusBytes .active then some .active
  else if l = statusBytes .pending_initialized then some .pending_initialized
  else if l = statusBytes .pending_queued then some .pending_queued
  else if l = statusBytes .active_ongoing then some .active_ongoing
  else if l = statusBytes .active_exiting then some .active_exiting
  else if l = statusBytes .active_slashed then some .active_slashed
  else if l = statusBytes .exited_unslashed then some .exited_unslashed
  else if l = statusBytes .exited_slashed then some .exited_slashed
  else if l = statusBytes .withdrawal_possible then some .withdrawal_possible
  else if l = statusBytes .withdrawal_done then some .withdrawal_done
  else none

theorem statusFromBytes_statusBytes (v : ValidatorStatus) :
    statusFromBytes (statusBytes v) = some v := by
  cases v <;> decide

theorem statusBytes_length_le (v : ValidatorStatus) : (statusBytes v).length ≤ 19 := by
  cases v <;> decide

/-! ### Generic list framing -/

/-- Decode `k` fixed-size elements, requiring the region to be consumed
exactly. -/
def decodeFixedListAux {α : Type} (p : List Nat → Option (α × List Nat)) :
    Nat → List Nat → Option (List α)
  | 0, [] => some []
  | 0, _ :: _ => none
  | k + 1, l =>
    (p l).bind fun q => (decodeFixedListAux p k q.2).map fun xs => q.1 :: xs

theorem decodeFixedListAux_encode {α : Type} (p : List Nat → Option (α × List Nat))
    (enc : α → List Nat) (l : List α)
    (h : ∀ x ∈ l, ∀ r, p (enc x ++ r) = some (x, r)) :
    decodeFixedListAux p l.length (concatAll (l.map enc)) = some l := by
  induction l with
  | nil => rfl
  | cons x xs ih =>
    show (p (enc x ++ concatAll (xs.map enc))).bind _ = _
    rw [h x (by simp)]
    simp only [Option.some_bind]
    rw [ih (fun y hy r => h y (by simp [hy]) r)]
    rfl

/-- A region holding a raw concatenation of fixed-size (`k`-byte) elements:
the element count is the byte length divided by `k`. -/
def decodeFixedRegion {α : Type} (p : List Nat → Option (α × List Nat)) (k : Nat)
    (l : List Nat) : Option (List α) :=
  if l.length % k = 0 then decodeFixedListAux p (l.length / k) l else none

theorem decodeFixedRegion_encode {α : Type} (p : List Nat → Option (α × List Nat))
    (enc : α → List Nat) (k : Nat) (hk : 0 < k) (l : List α)
    (hlen : ∀ x ∈ l, (enc x).length = k)
    (h : ∀ x ∈ l, ∀ r, p (enc x ++ r) = some (x, r)) :
    decodeFixedRegion p k (concatAll (l.map enc)) = some l := by
  unfold decodeFixedRegion
  rw [concatAll_length_const enc k l hlen]
  rw [if_pos (Nat.mul_mod_right k l.length)]
  rw [show k * l.length / k = l.length from Nat.mul_div_cancel_left _ hk]
  exact decodeFixedListAux_encode p enc l h

/-- A list of variable-size elements: an element count word followed by a
byte-length word and the bytes of each element. -/
def encodeVarList {α : Type} (enc : α → List Nat) (l : List α) : List Nat :=
  encodeU64 l.length ++ concatAll (l.map fun x => encodeU64 (enc x).length ++ enc x)

def decodeVarListAux {α : Type} (dec : List Nat → Option α) :
    Nat → List Nat → Option (List α)
  | 0, l => if l = [] then some [] else none
  | k + 1, l =>
    (parseU64 l).bind fun p1 =>
    (takeBytes p1.1 p1.2).bind fun p2 =>
    (dec p2.1).bind fun x =>
    (decodeVarListAux dec k p2.2).map fun xs => x :: xs

def decodeVarList {α : Type} (dec : List Nat → Option α) (l : List Nat) :
    Option (List α) :=
  (parseU64 l).bind fun p => decodeVarListAux dec p.1 p.2

theorem decodeVarListAux_encode {α : Type} (dec : List Nat → Option α)
    (enc : α → List Nat) (l : List α)
    (h : ∀ x ∈ l, dec (enc x) = some x ∧ (enc x).length < U64_LIMIT) :
    decodeVarListAux dec l.length
      (concatAll (l.map fun x => encodeU64 (enc x).length ++ enc x)) = some l := by
  induction l with
  | nil => rfl
  | cons x xs ih =>
    show (parseU64 ((encodeU64 (enc x).length ++ enc x) ++
      concatAll (xs.map fun x => encodeU64 (enc x).length ++ enc x))).bind _ = _
    rw [List.append_assoc, parseU64_encodeU64 _ (h x (by simp)).2]
    simp only [Option.some_bind]
    rw [takeBytes_append]
    simp only [Option.some_bind]
    rw [(h x (by simp)).1]
    simp only [Option.some_bind]
    rw [ih (fun y hy => h y (by simp [hy]))]
    rfl

theorem decodeVarList_encode {α : Type} (dec : List Nat → Option α)
    (enc : α → List Nat) (l : List α) (hcount : l.length < U64_LIMIT)
    (h : ∀ x ∈ l, dec (enc x) = some x ∧ (enc x).length < U64_LIMIT) :
    decodeVarList dec (encodeVarList enc l) = some l := by
  unfold decodeVarList encodeVarList
  rw [parseU64_encodeU64 _ hcount]
  simp only [Option.some_bind]
  exact decodeVarListAux_encode dec enc l h

/-- Run a front parser and require that it consumes the whole input. -/
def requireConsumed {α : Type} (p : List Nat → Option (α × List Nat)) (l : List Nat) :
    Option α :=
  (p l).bind fun q => if q.2 = [] then some q.1 else none

theorem requireConsumed_encode {α : Type} (p : List Nat → Option (α × List Nat))
    (enc : α → List Nat) (x : α) (h : ∀ r, p (enc x ++ r) = some (x, r)) :
    requireConsumed p (enc x) = some x := by
  unfold requireConsumed
  rw [show enc x = enc x ++ [] from (List.append_nil _).symm, h []]
  simp

/-! ### Binary rendering of the nine payload schemas -/

/-- Binary rendering of `RootContainer` (32 bytes). -/
def encodeBinRootContainer (c : RootContainer) : List Nat := c.root

def parseRootContainer (l : List Nat) : Option (RootContainer × List Nat) :=
  (takeBytes 32 l).map fun p => (⟨p.1⟩, p.2)

def decodeBinRootContainer : List Nat → Option RootContainer :=
  requireConsumed parseRootContainer

/-- Binary rendering of `RandaoContainer` (32 bytes). -/
def encodeBinRandaoContainer (c : RandaoContainer) : List Nat := c.randao

def parseRandaoContainer (l : List Nat) : Option (RandaoContainer × List Nat) :=
  (takeBytes 32 l).map fun p => (⟨p.1⟩, p.2)

def decodeBinRandaoContainer : List Nat → Option RandaoContainer :=
  requireConsumed parseRandaoContainer

def decodeBinFork : List Nat → Option Fork := requireConsumed parseFork

/-- Binary rendering of `FinalityCheckpoints` (120 bytes). -/
def encodeBinFinalityCheckpoints (f : FinalityCheckpoints) : List Nat :=
  encodeBinCheckpoint f.previousJustified ++ encodeBinCheckpoint f.currentJustified ++
    encodeBinCheckpoint f.finalized

def parseFinalityCheckpoints (l : List Nat) : Option (FinalityCheckpoints × List Nat) :=
  (parseCheckpoint l).bind fun p1 =>
  (parseCheckpoint p1.2).bind fun p2 =>
  (parseCheckpoint p2.2).map fun p3 => (⟨p1.1, p2.1, p3.1⟩, p3.2)

def decodeBinFinalityCheckpoints : List Nat → Option FinalityCheckpoints :=
  requireConsumed parseFinalityCheckpoints

/-- Binary rendering of `ValidatorResponse`: three fixed words (`index`,
`balance`, the offset of the variable `status` field), the fixed `validator`
container, then the status bytes in the variable region. -/
def encodeBinValidatorResponse (v : ValidatorResponse) : List Nat :=
  encodeU64 v.index ++ encodeU64 v.balance ++ encodeU64 145 ++
    encodeBinValidator v.validator ++ statusBytes v.status

def decodeBinValidatorResponse (l : List Nat) : Option ValidatorResponse :=
  (parseU64 l).bind fun p1 =>
  (parseU64 p1.2).bind fun p2 =>
  (parseU64 p2.2).bind fun p3 =>
  if p3.1 = 145 then
    (parseValidator p3.2).bind fun p4 =>
    (statusFromBytes p4.2).map fun st => ⟨p1.1, p2.1, st, p4.1⟩
  else none

/-- Binary rendering of a `ValidatorResponse` list (variable elements). -/
def encodeBinValidatorResponseList : List ValidatorResponse → List Nat :=
  encodeVarList encodeBinValidatorResponse

def decodeBinValidatorResponseList : List Nat → Option (List ValidatorResponse) :=
  decodeVarList decodeBinValidatorResponse

/-- Binary rendering of a `ValidatorBalance` list (16-byte elements, raw
concatenation). -/
def encodeBinValidatorBalanceList (l : List ValidatorBalance) : List Nat :=
  concatAll (l.map encodeBinValidatorBalance)

def decodeBinValidatorBalanceList : List Nat → Option (List ValidatorBalance) :=
  decodeFixedRegion parseValidatorBalance 16

/-- A raw concatenation of u64 words. -/
def encodeU64Region (xs : List Nat) : List Nat := concatAll (xs.map encodeU64)

def decodeU64Region : List Nat → Option (List Nat) := decodeFixedRegion parseU64 8

/-- Binary rendering of `EpochCommitteeResponse`: two fixed words, the offset
of the variable `validators` list, then its u64 words. -/
def encodeBinEpochCommitteeResponse (e : EpochCommitteeResponse) : List Nat :=
  encodeU64 e.index ++ encodeU64 e.slot ++ encodeU64 24 ++ encodeU64Region e.validators

def decodeBinEpochCommitteeResponse (l : List Nat) : Option EpochCommitteeResponse :=
  (parseU64 l).bind fun p1 =>
  (parseU64 p1.2).bind fun p2 =>
  (parseU64 p2.2).bind fun p3 =>
  if p3.1 = 24 then
    (decodeU64Region p3.2).map fun vs => ⟨p1.1, p2.1, vs⟩
  else none

/-- Binary rendering of an `EpochCommitteeResponse` list (variable elements). -/
def encodeBinEpochCommitteeResponseList : List EpochCommitteeResponse → List Nat :=
  encodeVarList encodeBinEpochCommitteeResponse

def decodeBinEpochCommitteeResponseList : List Nat → Option (List EpochCommitteeResponse) :=
  decodeVarList decodeBinEpochCommitteeResponse

/-- Binary rendering of `EpochSyncCommitteesResponse`: two offset words (both
fields are variable), the `validators` u64 region, then the
`validatorAggregates` list of u64 regions. -/
def encodeBinEpochSyncCommitteesResponse (e : EpochSyncCommitteesResponse) : List Nat :=
  encodeU64 16 ++ encodeU64 (16 + (encodeU64Region e.validators).length) ++
    encodeU64Region e.validators ++ encodeVarList encodeU64Region e.validatorAggregates

def decodeBinEpochSyncCommitteesResponse (l : List Nat) :
    Option EpochSyncCommitteesResponse :=
  (parseU64 l).bind fun p1 =>
  (parseU64 p1.2).bind fun p2 =>
  if p1.1 = 16 ∧ 16 ≤ p2.1 then
    (takeBytes (p2.1 - 16) p2.2).bind fun p3 =>
    (decodeU64Region p3.1).bind fun vs =>
    (decodeVarList decodeU64Region p3.2).map fun va => ⟨vs, va⟩
  else none

/-! ### Binary round trips, schema by schema -/

theorem isBytesLen_length {n : Nat} {bs : Bytes} (h : isBytesLen n bs = true) :
    bs.length = n := by
  simp only [isBytesLen, Bool.and_eq_true, decide_eq_true_eq] at h
  exact h.1

theorem isU64List_spec {l : List Nat} (h : isU64List l = true) :
    l.length < 4294967296 ∧ ∀ x ∈ l, x < U64_LIMIT := by
  simp only [isU64List, Bool.and_eq_true, decide_eq_true_eq, List.all_eq_true] at h
  exact ⟨h.1, fun x hx => isU64_lt (h.2 x hx)⟩

theorem decodeBinRootContainer_encode (c : RootContainer)
    (h : conformantRootContainer c = true) :
    decodeBinRootContainer (encodeBinRootContainer c) = some c := by
  refine requireConsumed_encode _ encodeBinRootContainer _ (fun r => ?_)
  unfold parseRootContainer encodeBinRootContainer
  rw [takeBytes_of_isBytesLen h]
  rfl

theorem decodeBinRandaoContainer_encode (c : RandaoContainer)
    (h : conformantRandaoContainer c = true) :
    decodeBinRandaoContainer (encodeBinRandaoContainer c) = some c := by
  refine requireConsumed_encode _ encodeBinRandaoContainer _ (fun r => ?_)
  unfold parseRandaoContainer encodeBinRandaoContainer
  rw [takeBytes_of_isBytesLen h]
  rfl

theorem decodeBinFork_encode (f : Fork) (h : conformantFork f = true) :
    decodeBinFork (encodeBinFork f) = some f :=
  requireConsumed_encode _ encodeBinFork _ (parseFork_encode f h)

theorem parseFinalityCheckpoints_encode (f : FinalityCheckpoints)
    (h : conformantFinalityCheckpoints f = true) (rest : List Nat) :
    parseFinalityCheckpoints (encodeBinFinalityCheckpoints f ++ rest) = some (f, rest) := by
  simp only [conformantFinalityCheckpoints, Bool.and_eq_true] at h
  unfold parseFinalityCheckpoints encodeBinFinalityCheckpoints
  simp only [List.append_assoc]
  rw [parseCheckpoint_encode _ h.1.1]
  simp only [Option.some_bind]
  rw [parseCheckpoint_encode _ h.1.2]
  simp only [Option.some_bind]
  rw [parseCheckpoint_encode _ h.2]
  simp only [Option.map_some']

theorem decodeBinFinalityCheckpoints_encode (f : FinalityCheckpoints)
    (h : conformantFinalityCheckpoints f = true) :
    decodeBinFinalityCheckpoints (encodeBinFinalityCheckpoints f) = some f :=
  requireConsumed_encode _ encodeBinFinalityCheckpoints _
    (parseFinalityCheckpoints_encode f h)

theorem decodeBinValidatorResponse_encode (v : ValidatorResponse)
    (h : conformantValidatorResponse v = true) :
    decodeBinValidatorResponse (encodeBinValidatorResponse v) = some v := by
  simp only [conformantValidatorResponse, Bool.and_eq_true] at h
  obtain ⟨⟨h1, h2⟩, h3⟩ := h
  unfold decodeBinValidatorResponse encodeBinValidatorResponse
  simp only [List.append_assoc]
  rw [parseU64_encodeU64 _ (isU64_lt h1)]
  simp only [Option.some_bind]
  rw [parseU64_encodeU64 _ (isU64_lt h2)]
  simp only [Option.some_bind]
  rw [parseU64_encodeU64 145 (by norm_num [U64_LIMIT])]
  simp only [Option.some_bind]
  rw [if_pos trivial]
  rw [parseValidator_encode _ h3]
  simp only [Option.some_bind]
  rw [statusFromBytes_statusBytes]
  simp only [Option.map_some']

theorem encodeBinValidator_length (v : Validator) (h : conformantValidator v = true) :
    (encodeBinValidator v).length = 121 := by
  simp only [conformantValidator, Bool.and_eq_true] at h
  obtain ⟨⟨⟨⟨⟨⟨h1, h2⟩, _⟩, _⟩, _⟩, _⟩, _⟩ := h
  simp only [encodeBinValidator, List.length_append, encodeU64_length, encodeBool,
    isBytesLen_length h1, isBytesLen_length h2]
  rfl

theorem encodeBinValidatorResponse_length (v : ValidatorResponse)
    (h : conformantValidatorResponse v = true) :
    (encodeBinValidatorResponse v).length < U64_LIMIT := by
  simp only [conformantValidatorResponse, Bool.and_eq_true] at h
  have hst := statusBytes_length_le v.status
  simp only [encodeBinValidatorResponse, List.length_append, encodeU64_length,
    encodeBinValidator_length v.validator h.2]
  unfold U64_LIMIT
  omega

theorem decodeBinValidatorResponseList_encode (l : List ValidatorResponse)
    (h : conformantValidatorResponseList l = true) :
    decodeBinValidatorResponseList (encodeBinValidatorResponseList l) = some l := by
  simp only [conformantValidatorResponseList, Bool.and_eq_true, decide_eq_true_eq,
    List.all_eq_true] at h
  refine decodeVarList_encode _ _ l (by unfold U64_LIMIT; omega) (fun x hx => ?_)
  exact ⟨decodeBinValidatorResponse_encode x (h.2 x hx),
    encodeBinValidatorResponse_length x (h.2 x hx)⟩

theorem encodeBinValidatorBalance_length (v : ValidatorBalance) :
    (encodeBinValidatorBalance v).length = 16 := by
  simp [encodeBinValidatorBalance, encodeU64_length]

theorem decodeBinValidatorBalanceList_encode (l : List ValidatorBalance)
    (h : conformantValidatorBalanceList l = true) :
    decodeBinValidatorBalanceList (encodeBinValidatorBalanceList l) = some l := by
  simp only [conformantValidatorBalanceList, Bool.and_eq_true, decide_eq_true_eq,
    List.all_eq_true] at h
  exact decodeFixedRegion_encode _ _ 16 (by omega) l
    (fun x _ => encodeBinValidatorBalance_length x)
    (fun x hx r => parseValidatorBalance_encode x (h.2 x hx) r)

theorem decodeU64Region_encode (xs : List Nat) (h : ∀ x ∈ xs, x < U64_LIMIT) :
    decodeU64Region (encodeU64Region xs) = some xs :=
  decodeFixedRegion_encode _ _ 8 (by omega) xs (fun x _ => encodeU64_length x)
    (fun x hx r => parseU64_encodeU64 x (h x hx) r)

theorem encodeU64Region_length (xs : List Nat) :
    (encodeU64Region xs).length = 8 * xs.length :=
  concatAll_length_const encodeU64 8 xs (fun x _ => encodeU64_length x)

theorem decodeBinEpochCommitteeResponse_encode (e : EpochCommitteeResponse)
    (h : conformantEpochCommitteeResponse e = true) :
    decodeBinEpochCommitteeResponse (encodeBinEpochCommitteeResponse e) = some e := by
  simp only [conformantEpochCommitteeResponse, Bool.and_eq_true] at h
  obtain ⟨⟨h1, h2⟩, h3⟩ := h
  unfold decodeBinEpochCommitteeResponse encodeBinEpochCommitteeResponse
  simp only [List.append_assoc]
  rw [parseU64_encodeU64 _ (isU64_lt h1)]
  simp only [Option.some_bind]
  rw [parseU64_encodeU64 _ (isU64_lt h2)]
  simp only [Option.some_bind]
  rw [parseU64_encodeU64 24 (by norm_num [U64_LIMIT])]
  simp only [Option.some_bind]
  rw [if_pos trivial]
  rw [decodeU64Region_encode _ (isU64List_spec h3).2]
  simp only [Option.map_some']

theorem encodeBinEpochCommitteeResponse_length (e : EpochCommitteeResponse)
    (h : conformantEpochCommitteeResponse e = true) :
    (encodeBinEpochCommitteeResponse e).length < U64_LIMIT := by
  simp only [conformantEpochCommitteeResponse, Bool.and_eq_true] at h
  have hlen := (isU64List_spec h.2).1
  simp only [encodeBinEpochCommitteeResponse, List.length_append, encodeU64_length,
    encodeU64Region_length]
  unfold U64_LIMIT
  omega

theorem decodeBinEpochCommitteeResponseList_encode (l : List EpochCommitteeResponse)
    (h : conformantEpochCommitteeResponseList l = true) :
    decodeBinEpochCommitteeResponseList (encodeBinEpochCommitteeResponseList l) = some l := by
  simp only [conformantEpochCommitteeResponseList, Bool.and_eq_true, decide_eq_true_eq,
    List.all_eq_true] at h
  refine decodeVarList_encode _ _ l (by unfold U64_LIMIT; omega) (fun x hx => ?_)
  exact ⟨decodeBinEpochCommitteeResponse_encode x (h.2 x hx),
    encodeBinEpochCommitteeResponse_length x (h.2 x hx)⟩

theorem decodeBinEpochSyncCommitteesResponse_encode (e : EpochSyncCommitteesResponse)
    (h : conformantEpochSyncCommitteesResponse e = true) :
    decodeBinEpochSyncCommitteesResponse (encodeBinEpochSyncCommitteesResponse e) = some e := by
  simp only [conformantEpochSyncCommitteesResponse, Bool.and_eq_true, decide_eq_true_eq,
    List.all_eq_true] at h
  obtain ⟨⟨hv, hlen⟩, hagg⟩ := h
  have hreg := encodeU64Region_length e.validators
  have hvspec := isU64List_spec hv
  unfold decodeBinEpochSyncCommitteesResponse encodeBinEpochSyncCommitteesResponse
  simp only [List.append_assoc]
  rw [parseU64_encodeU64 16 (by norm_num [U64_LIMIT])]
  simp only [Option.some_bind]
  rw [parseU64_encodeU64 (16 + (encodeU64Region e.validators).length)
    (by rw [hreg]; unfold U64_LIMIT; omega)]
  simp only [Option.some_bind]
  rw [if_pos ⟨trivial, by omega⟩]
  rw [show 16 + (encodeU64Region e.validators).length - 16 =
    (encodeU64Region e.validators).length from by omega]
  rw [takeBytes_append]
  simp only [Option.some_bind]
  rw [decodeU64Region_encode _ hvspec.2]
  simp only [Option.some_bind]
  rw [decodeVarList_encode decodeU64Region encodeU64Region e.validatorAggregates
    (by unfold U64_LIMIT; omega)
    (fun a ha => ⟨decodeU64Region_encode a (isU64List_spec (hagg a ha)).2,
      by rw [encodeU64Region_length]
         have := (isU64List_spec (hagg a ha)).1
         unfold U64_LIMIT
         omega⟩)]
  simp only [Option.map_some']

/-! ## JSON rendering of the payload schemas

Modelled from the spec: field names use the eth2 snake_case rule, 64-bit
integers are rendered as decimal strings, byte sequences as `0x`-prefixed
lowercase hex strings. -/

/-- Lowercase hex digit: `0`-`9` then `a`-`f`, by character arithmetic. -/
def hexDigitChar (d : Nat) : Char :=
  if d < 10 then Char.ofNat (48 + d) else Char.ofNat (87 + d)

/-- Value of a lowercase hex digit (inverse character arithmetic). -/
def hexCharVal (c : Char) : Option Nat :=
  if '0' ≤ c ∧ c ≤ '9' then some (c.toNat - 48)
  else if 'a' ≤ c ∧ c ≤ 'f' then some (c.toNat - 87)
  else none

theorem hexCharVal_hexDigitChar {d : Nat} (h : d < 16) :
    hexCharVal (hexDigitChar d) = some d := by
  interval_cases d <;> decide

/-- Two hex characters of a byte. -/
def byteToHexChars (b : Nat) : List Char := [hexDigitChar (b / 16), hexDigitChar (b % 16)]

/-- Read hex characters two at a time. -/
def hexPairsToBytes : List Char → Option (List Nat)
  | [] => some []
  | [_] => none
  | c1 :: c2 :: rest =>
    (hexCharVal c1).bind fun hi =>
    (hexCharVal c2).bind fun lo =>
    (hexPairsToBytes rest).map fun bs => (16 * hi + lo) :: bs

theorem hexPairsToBytes_encode (bs : List Nat) (h : ∀ b ∈ bs, b < 256) :
    hexPairsToBytes (concatAll (bs.map byteToHexChars)) = some bs := by
  induction bs with
  | nil => rfl
  | cons b rest ih =>
    have hb : b < 256 := h b (by simp)
    show (hexCharVal (hexDigitChar (b / 16))).bind _ = _
    rw [hexCharVal_hexDigitChar (by omega)]
    simp only [Option.some_bind]
    rw [hexCharVal_hexDigitChar (by omega : b % 16 < 16)]
    simp only [Option.some_bind, List.append_eq, List.nil_append]
    rw [ih (fun x hx => h x (by simp [hx]))]
    simp only [Option.map_some', Option.some.injEq, List.cons.injEq]
    exact ⟨by omega, trivial⟩

/-- `0x`-prefixed lowercase hex string of a byte sequence. -/
def bytesToJson (bs : Bytes) : Json :=
  .str (String.mk ('0' :: 'x' :: concatAll (bs.map byteToHexChars)))

/-- Read a `0x` hex string of exactly `n` bytes. -/
def jsonToBytes (n : Nat) (j : Json) : Option Bytes :=
  match j with
  | .str s =>
    match s.data with
    | '0' :: 'x' :: rest =>
      (hexPairsToBytes rest).bind fun bs => if bs.length = n then some bs else none
    | _ => none
  | _ => none

theorem jsonToBytes_bytesToJson (n : Nat) (bs : Bytes) (h : isBytesLen n bs = true) :
    jsonToBytes n (bytesToJson bs) = some bs := by
  have h' := h
  simp only [isBytesLen, Bool.and_eq_true, decide_eq_true_eq, List.all_eq_true] at h'
  show (hexPairsToBytes (concatAll (bs.map byteToHexChars))).bind _ = some bs
  rw [hexPairsToBytes_encode bs (fun b hb => by simpa [isByte] using h'.2 b hb)]
  simp only [Option.some_bind]
  rw [if_pos h'.1]

/-- Decimal string of a u64. -/
def u64ToJson (n : Nat) : Json := .str (toU64Str n)

/-- Read a decimal u64 string. -/
def jsonToU64 : Json → Option Nat
  | .str s => fromU64Str s
  | _ => none

theorem jsonToU64_u64ToJson (n : Nat) (h : n < U64_LIMIT) :
    jsonToU64 (u64ToJson n) = some n :=
  fromU64Str_toU64Str n h

/-- Read a boolean. -/
def jsonToBool : Json → Option Bool
  | .bool b => some b
  | _ => none

/-- Read a status name. -/
def jsonToStatus : Json → Option ValidatorStatus
  | .str s => statusFromStr s
  | _ => none

theorem jsonToStatus_statusStr (v : ValidatorStatus) :
    jsonToStatus (.str (statusStr v)) = some v :=
  statusFromStr_statusStr v

/-- Decode every element of a JSON array. -/
def jsonArrDecode {α : Type} (dec : Json → Option α) : List Json → Option (List α)
  | [] => some []
  | j :: rest => (dec j).bind fun x => (jsonArrDecode dec rest).map fun xs => x :: xs

theorem jsonArrDecode_map {α : Type} (dec : Json → Option α) (enc : α → Json)
    (l : List α) (h : ∀ x ∈ l, dec (enc x) = some x) :
    jsonArrDecode dec (l.map enc) = some l := by
  induction l with
  | nil => rfl
  | cons x xs ih =>
    show (dec (enc x)).bind _ = _
    rw [h x (by simp)]
    simp only [Option.some_bind]
    rw [ih (fun y hy => h y (by simp [hy]))]
    rfl

/-! ### JSON codecs, schema by schema -/

/-- JSON rendering of a Checkpoint. -/
def checkpointToJson (c : Checkpoint) : Json :=
  .obj [("epoch", u64ToJson c.epoch), ("root", bytesToJson c.root)]

def checkpointFromJson (j : Json) : Option Checkpoint :=
  (asObj j).bind fun fields =>
  (jsonLookup fields "epoch").bind fun je =>
  (jsonLookup fields "root").bind fun jr =>
  (jsonToU64 je).bind fun e =>
  (jsonToBytes 32 jr).map fun r => ⟨e, r⟩

theorem checkpointFromJson_toJson (c : Checkpoint) (h : conformantCheckpoint c = true) :
    checkpointFromJson (checkpointToJson c) = some c := by
  simp only [conformantCheckpoint, Bool.and_eq_true] at h
  simp [checkpointFromJson, checkpointToJson, asObj, jsonLookup,
    jsonToU64_u64ToJson _ (isU64_lt h.1), jsonToBytes_bytesToJson _ _ h.2]

/-- JSON rendering of a Fork. -/
def forkToJson (f : Fork) : Json :=
  .obj [("previous_version", bytesToJson f.previousVersion),
    ("current_version", bytesToJson f.currentVersion),
    ("epoch", u64ToJson f.epoch)]

def forkFromJson (j : Json) : Option Fork :=
  (asObj j).bind fun fields =>
  (jsonLookup fields "previous_version").bind fun jpv =>
  (jsonLookup fields "current_version").bind fun jcv =>
  (jsonLookup fields "epoch").bind fun je =>
  (jsonToBytes 4 jpv).bind fun pv =>
  (jsonToBytes 4 jcv).bind fun cv =>
  (jsonToU64 je).map fun e => ⟨pv, cv, e⟩

theorem forkFromJson_toJson (f : Fork) (h : conformantFork f = true) :
    forkFromJson (forkToJson f) = some f := by
  simp only [conformantFork, Bool.and_eq_true] at h
  simp [forkFromJson, forkToJson, asObj, jsonLookup,
    jsonToBytes_bytesToJson _ _ h.1.1, jsonToBytes_bytesToJson _ _ h.1.2,
    jsonToU64_u64ToJson _ (isU64_lt h.2)]

/-- JSON rendering of a Validator. -/
def validatorToJson (v : Validator) : Json :=
  .obj [("pubkey", bytesToJson v.pubkey),
    ("withdrawal_credentials", bytesToJson v.withdrawalCredentials),
    ("effective_balance", u64ToJson v.effectiveBalance),
    ("slashed", .bool v.slashed),
    ("activation_eligibility_epoch", u64ToJson v.activationEligibilityEpoch),
    ("activation_epoch", u64ToJson v.activationEpoch),
    ("exit_epoch", u64ToJson v.exitEpoch),
    ("withdrawable_epoch", u64ToJson v.withdrawableEpoch)]

def validatorFromJson (j : Json) : Option Validator :=
  (asObj j).bind fun fields =>
  (jsonLookup fields "pubkey").bind fun j1 =>
  (jsonLookup fields "withdrawal_credentials").bind fun j2 =>
  (jsonLookup fields "effective_balance").bind fun j3 =>
  (jsonLookup fields "slashed").bind fun j4 =>
  (jsonLookup fields "activation_eligibility_epoch").bind fun j5 =>
  (jsonLookup fields "activation_epoch").bind fun j6 =>
  (jsonLookup fields "exit_epoch").bind fun j7 =>
  (jsonLookup fields "withdrawable_epoch").bind fun j8 =>
  (jsonToBytes 48 j1).bind fun pk =>
  (jsonToBytes 32 j2).bind fun wc =>
  (jsonToU64 j3).bind fun eb =>
  (jsonToBool j4).bind fun sl =>
  (jsonToU64 j5).bind fun aee =>
  (jsonToU64 j6).bind fun ae =>
  (jsonToU64 j7).bind fun ee =>
  (jsonToU64 j8).map fun we => ⟨pk, wc, eb, sl, aee, ae, ee, we⟩

set_option maxHeartbeats 2000000 in
theorem validatorFromJson_toJson (v : Validator) (h : conformantValidator v = true) :
    validatorFromJson (validatorToJson v) = some v := by
  simp only [conformantValidator, Bool.and_eq_true] at h
  obtain ⟨⟨⟨⟨⟨⟨h1, h2⟩, h3⟩, h4⟩, h5⟩, h6⟩, h7⟩ := h
  show (jsonToBytes 48 (bytesToJson v.pubkey)).bind _ = some v
  rw [jsonToBytes_bytesToJson _ _ h1]
  simp only [Option.some_bind]
  rw [jsonToBytes_bytesToJson _ _ h2]
  simp only [Option.some_bind]
  rw [jsonToU64_u64ToJson _ (isU64_lt h3)]
  simp only [Option.some_bind]
  show (some v.slashed).bind _ = some v
  simp only [Option.some_bind]
  rw [jsonToU64_u64ToJson _ (isU64_lt h4)]
  simp only [Option.some_bind]
  rw [jsonToU64_u64ToJson _ (isU64_lt h5)]
  simp only [Option.some_bind]
  rw [jsonToU64_u64ToJson _ (isU64_lt h6)]
  simp only [Option.some_bind]
  rw [jsonToU64_u64ToJson _ (isU64_lt h7)]
  simp only [Option.map_some']

/-- JSON rendering of the FinalityCheckpoints container. -/
def finalityCheckpointsToJson (f : FinalityCheckpoints) : Json :=
  .obj [("previous_justified", checkpointToJson f.previousJustified),
    ("current_justified", checkpointToJson f.currentJustified),
    ("finalized", checkpointToJson f.finalized)]

def finalityCheckpointsFromJson (j : Json) : Option FinalityCheckpoints :=
  (asObj j).bind fun fields =>
  (jsonLookup fields "previous_justified").bind fun j1 =>
  (jsonLookup fields "current_justified").bind fun j2 =>
  (jsonLookup fields "finalized").bind fun j3 =>
  (checkpointFromJson j1).bind fun c1 =>
  (checkpointFromJson j2).bind fun c2 =>
  (checkpointFromJson j3).map fun c3 => ⟨c1, c2, c3⟩

theorem finalityCheckpointsFromJson_toJson (f : FinalityCheckpoints)
    (h : conformantFinalityCheckpoints f = true) :
    finalityCheckpointsFromJson (finalityCheckpointsToJson f) = some f := by
  simp only [conformantFinalityCheckpoints, Bool.and_eq_true] at h
  simp [finalityCheckpointsFromJson, finalityCheckpointsToJson, asObj, jsonLookup,
    checkpointFromJson_toJson _ h.1.1, checkpointFromJson_toJson _ h.1.2,
    checkpointFromJson_toJson _ h.2]

/-- JSON rendering of a ValidatorResponse. -/
def validatorResponseToJson (v : ValidatorResponse) : Json :=
  .obj [("index", u64ToJson v.index), ("balance", u64ToJson v.balance),
    ("status", .str (statusStr v.status)), ("validator", validatorToJson v.validator)]

def validatorResponseFromJson (j : Json) : Option ValidatorResponse :=
  (asObj j).bind fun fields =>
  (jsonLookup fields "index").bind fun j1 =>
  (jsonLookup fields "balance").bind fun j2 =>
  (jsonLookup fields "status").bind fun j3 =>
  (jsonLookup fields "validator").bind fun j4 =>
  (jsonToU64 j1).bind fun i =>
  (jsonToU64 j2).bind fun b =>
  (jsonToStatus j3).bind fun st =>
  (validatorFromJson j4).map fun val => ⟨i, b, st, val⟩

theorem validatorResponseFromJson_toJson (v : ValidatorResponse)
    (h : conformantValidatorResponse v = true) :
    validatorResponseFromJson (validatorResponseToJson v) = some v := by
  simp only [conformantValidatorResponse, Bool.and_eq_true] at h
  simp [validatorResponseFromJson, validatorResponseToJson, asObj, jsonLookup,
    jsonToU64_u64ToJson _ (isU64_lt h.1.1), jsonToU64_u64ToJson _ (isU64_lt h.1.2),
    jsonToStatus_statusStr, validatorFromJson_toJson _ h.2]

/-- JSON rendering of a ValidatorBalance. -/
def validatorBalanceToJson (v : ValidatorBalance) : Json :=
  .obj [("index", u64ToJson v.index), ("balance", u64ToJson v.balance)]

def validatorBalanceFromJson (j : Json) : Option ValidatorBalance :=
  (asObj j).bind fun fields =>
  (jsonLookup fields "index").bind fun j1 =>
  (jsonLookup fields "balance").bind fun j2 =>
  (jsonToU64 j1).bind fun i =>
  (jsonToU64 j2).map fun b => ⟨i, b⟩

theorem validatorBalanceFromJson_toJson (v : ValidatorBalance)
    (h : conformantValidatorBalance v = true) :
    validatorBalanceFromJson (validatorBalanceToJson v) = some v := by
  simp only [conformantValidatorBalance, Bool.and_eq_true] at h
  simp [validatorBalanceFromJson, validatorBalanceToJson, asObj, jsonLookup,
    jsonToU64_u64ToJson _ (isU64_lt h.1), jsonToU64_u64ToJson _ (isU64_lt h.2)]

/-- JSON rendering of an EpochCommitteeResponse. -/
def epochCommitteeResponseToJson (e : EpochCommitteeResponse) : Json :=
  .obj [("index", u64ToJson e.index), ("slot", u64ToJson e.slot),
    ("validators", .arr (e.validators.map u64ToJson))]

def jsonToU64List (j : Json) : Option (List Nat) :=
  (asArr j).bind fun l => jsonArrDecode jsonToU64 l

theorem jsonToU64List_map (xs : List Nat) (h : isU64List xs = true) :
    jsonToU64List (.arr (xs.map u64ToJson)) = some xs := by
  have hspec := isU64List_spec h
  simp only [jsonToU64List, asArr, Option.some_bind]
  exact jsonArrDecode_map _ _ xs (fun x hx => jsonToU64_u64ToJson x (hspec.2 x hx))

def epochCommitteeResponseFromJson (j : Json) : Option EpochCommitteeResponse :=
  (asObj j).bind fun fields =>
  (jsonLookup fields "index").bind fun j1 =>
  (jsonLookup fields "slot").bind fun j2 =>
  (jsonLookup fields "validators").bind fun j3 =>
  (jsonToU64 j1).bind fun i =>
  (jsonToU64 j2).bind fun sl =>
  (jsonToU64List j3).map fun vs => ⟨i, sl, vs⟩

theorem epochCommitteeResponseFromJson_toJson (e : EpochCommitteeResponse)
    (h : conformantEpochCommitteeResponse e = true) :
    epochCommitteeResponseFromJson (epochCommitteeResponseToJson e) = some e := by
  simp only [conformantEpochCommitteeResponse, Bool.and_eq_true] at h
  simp [epochCommitteeResponseFromJson, epochCommitteeResponseToJson, asObj, jsonLookup,
    jsonToU64_u64ToJson _ (isU64_lt h.1.1), jsonToU64_u64ToJson _ (isU64_lt h.1.2),
    jsonToU64List_map _ h.2]

/-- JSON rendering of the EpochSyncCommitteesResponse container. -/
def epochSyncCommitteesResponseToJson (e : EpochSyncCommitteesResponse) : Json :=
  .obj [("validators", .arr (e.validators.map u64ToJson)),
    ("validator_aggregates",
      .arr (e.validatorAggregates.map fun a => .arr (a.map u64ToJson)))]

def epochSyncCommitteesResponseFromJson (j : Json) : Option EpochSyncCommitteesResponse :=
  (asObj j).bind fun fields =>
  (jsonLookup fields "validators").bind fun j1 =>
  (jsonLookup fields "validator_aggregates").bind fun j2 =>
  (jsonToU64List j1).bind fun vs =>
  ((asArr j2).bind fun l => jsonArrDecode jsonToU64List l).map fun va => ⟨vs, va⟩

theorem epochSyncCommitteesResponseFromJson_toJson (e : EpochSyncCommitteesResponse)
    (h : conformantEpochSyncCommitteesResponse e = true) :
    epochSyncCommitteesResponseFromJson (epochSyncCommitteesResponseToJson e) = some e := by
  simp only [conformantEpochSyncCommitteesResponse, Bool.and_eq_true, decide_eq_true_eq,
    List.all_eq_true] at h
  have hagg : jsonArrDecode jsonToU64List
      (e.validatorAggregates.map fun a => .arr (a.map u64ToJson)) =
      some e.validatorAggregates :=
    jsonArrDecode_map _ _ _ (fun a ha => jsonToU64List_map a (h.2 a ha))
  simp [epochSyncCommitteesResponseFromJson, epochSyncCommitteesResponseToJson, asObj,
    asArr, jsonLookup, jsonToU64List_map _ h.1.1, hagg]

/-- JSON rendering of the RootContainer. -/
def rootContainerToJson (c : RootContainer) : Json :=
  .obj [("root", bytesToJson c.root)]

def rootContainerFromJson (j : Json) : Option RootContainer :=
  (asObj j).bind fun fields =>
  (jsonLookup fields "root").bind fun j1 =>
  (jsonToBytes 32 j1).map fun r => ⟨r⟩

theorem rootContainerFromJson_toJson (c : RootContainer)
    (h : conformantRootContainer c = true) :
    rootContainerFromJson (rootContainerToJson c) = some c := by
  simp [rootContainerFromJson, rootContainerToJson, asObj, jsonLookup,
    jsonToBytes_bytesToJson _ _ h]

/-- JSON rendering of the RandaoContainer. -/
def randaoContainerToJson (c : RandaoContainer) : Json :=
  .obj [("randao", bytesToJson c.randao)]

def randaoContainerFromJson (j : Json) : Option RandaoContainer :=
  (asObj j).bind fun fields =>
  (jsonLookup fields "randao").bind fun j1 =>
  (jsonToBytes 32 j1).map fun r => ⟨r⟩

theorem randaoContainerFromJson_toJson (c : RandaoContainer)
    (h : conformantRandaoContainer c = true) :
    randaoContainerFromJson (randaoContainerToJson c) = some c := by
  simp [randaoContainerFromJson, randaoContainerToJson, asObj, jsonLookup,
    jsonToBytes_bytesToJson _ _ h]

/-- JSON rendering of a ValidatorResponse list. -/
def validatorResponseListToJson (l : List ValidatorResponse) : Json :=
  .arr (l.map validatorResponseToJson)

def validatorResponseListFromJson (j : Json) : Option (List ValidatorResponse) :=
  (asArr j).bind fun js => jsonArrDecode validatorResponseFromJson js

theorem validatorResponseListFromJson_toJson (l : List ValidatorResponse)
    (h : conformantValidatorResponseList l = true) :
    validatorResponseListFromJson (validatorResponseListToJson l) = some l := by
  simp only [conformantValidatorResponseList, Bool.and_eq_true, decide_eq_true_eq,
    List.all_eq_true] at h
  simp only [validatorResponseListFromJson, validatorResponseListToJson, asArr,
    Option.some_bind]
  exact jsonArrDecode_map _ _ l (fun x hx => validatorResponseFromJson_toJson x (h.2 x hx))

/-- JSON rendering of a ValidatorBalance list. -/
def validatorBalanceListToJson (l : List ValidatorBalance) : Json :=
  .arr (l.map validatorBalanceToJson)

def validatorBalanceListFromJson (j : Json) : Option (List ValidatorBalance) :=
  (asArr j).bind fun js => jsonArrDecode validatorBalanceFromJson js

theorem validatorBalanceListFromJson_toJson (l : List ValidatorBalance)
    (h : conformantValidatorBalanceList l = true) :
    validatorBalanceListFromJson (validatorBalanceListToJson l) = some l := by
  simp only [conformantValidatorBalanceList, Bool.and_eq_true, decide_eq_true_eq,
    List.all_eq_true] at h
  simp only [validatorBalanceListFromJson, validatorBalanceListToJson, asArr,
    Option.some_bind]
  exact jsonArrDecode_map _ _ l (fun x hx => validatorBalanceFromJson_toJson x (h.2 x hx))

/-- JSON rendering of an EpochCommitteeResponse list. -/
def epochCommitteeResponseListToJson (l : List EpochCommitteeResponse) : Json :=
  .arr (l.map epochCommitteeResponseToJson)

def epochCommitteeResponseListFromJson (j : Json) : Option (List EpochCommitteeResponse) :=
  (asArr j).bind fun js => jsonArrDecode epochCommitteeResponseFromJson js

theorem epochCommitteeResponseListFromJson_toJson (l : List EpochCommitteeResponse)
    (h : conformantEpochCommitteeResponseList l = true) :
    epochCommitteeResponseListFromJson (epochCommitteeResponseListToJson l) = some l := by
  simp only [conformantEpochCommitteeResponseList, Bool.and_eq_true, decide_eq_true_eq,
    List.all_eq_true] at h
  simp only [epochCommitteeResponseListFromJson, epochCommitteeResponseListToJson, asArr,
    Option.some_bind]
  exact jsonArrDecode_map _ _ l
    (fun x hx => epochCommitteeResponseFromJson_toJson x (h.2 x hx))

/-! ## Claim C4: response schema round trips -/

/-- C4: for each response payload schema of `getReturnTypes` — RootContainer,
Fork, RandaoContainer, FinalityCheckpoints, ValidatorResponse and its list,
the ValidatorBalance list, the EpochCommitteeResponse list, and
EpochSyncCommitteesResponse — every value conformant to the schema satisfies
`decodeJSON(encodeJSON(v)) = v` and `decodeBinary(encodeBinary(v)) = v`. -/
theorem C4_response_roundtrips :
    (∀ c, conformantRootContainer c = true →
      rootContainerFromJson (rootContainerToJson c) = some c ∧
      decodeBinRootContainer (encodeBinRootContainer c) = some c) ∧
    (∀ f, conformantFork f = true →
      forkFromJson (forkToJson f) = some f ∧
      decodeBinFork (encodeBinFork f) = some f) ∧
    (∀ c, conformantRandaoContainer c = true →
      randaoContainerFromJson (randaoContainerToJson c) = some c ∧
      decodeBinRandaoContainer (encodeBinRandaoContainer c) = some c) ∧
    (∀ f, conformantFinalityCheckpoints f = true →
      finalityCheckpointsFromJson (finalityCheckpointsToJson f) = some f ∧
      decodeBinFinalityCheckpoints (encodeBinFinalityCheckpoints f) = some f) ∧
    (∀ v, conformantValidatorResponse v = true →
      validatorResponseFromJson (validatorResponseToJson v) = some v ∧
      decodeBinValidatorResponse (encodeBinValidatorResponse v) = some v) ∧
    (∀ l, conformantValidatorResponseList l = true →
      validatorResponseListFromJson (validatorResponseListToJson l) = some l ∧
      decodeBinValidatorResponseList (encodeBinValidatorResponseList l) = some l) ∧
    (∀ l, conformantValidatorBalanceList l = true →
      validatorBalanceListFromJson (validatorBalanceListToJson l) = some l ∧
      decodeBinValidatorBalanceList (encodeBinValidatorBalanceList l) = some l) ∧
    (∀ l, conformantEpochCommitteeResponseList l = true →
      epochCommitteeResponseListFromJson (epochCommitteeResponseListToJson l) = some l ∧
      decodeBinEpochCommitteeResponseList (encodeBinEpochCommitteeResponseList l) = some l) ∧
    (∀ e, conformantEpochSyncCommitteesResponse e = true →
      epochSyncCommitteesResponseFromJson (epochSyncCommitteesResponseToJson e) = some e ∧
      decodeBinEpochSyncCommitteesResponse (encodeBinEpochSyncCommitteesResponse e) = some e) :=
  ⟨fun c h => ⟨rootContainerFromJson_toJson c h, decodeBinRootContainer_encode c h⟩,
    fun f h => ⟨forkFromJson_toJson f h, decodeBinFork_encode f h⟩,
    fun c h => ⟨randaoContainerFromJson_toJson c h, decodeBinRandaoContainer_encode c h⟩,
    fun f h => ⟨finalityCheckpointsFromJson_toJson f h,
      decodeBinFinalityCheckpoints_encode f h⟩,
    fun v h => ⟨validatorResponseFromJson_toJson v h, decodeBinValidatorResponse_encode v h⟩,
    fun l h => ⟨validatorResponseListFromJson_toJson l h,
      decodeBinValidatorResponseList_encode l h⟩,
    fun l h => ⟨validatorBalanceListFromJson_toJson l h,
      decodeBinValidatorBalanceList_encode l h⟩,
    fun l h => ⟨epochCommitteeResponseListFromJson_toJson l h,
      decodeBinEpochCommitteeResponseList_encode l h⟩,
    fun e h => ⟨epochSyncCommitteesResponseFromJson_toJson e h,
      decodeBinEpochSyncCommitteesResponse_encode e h⟩⟩

/-- C4 instantiated: the balance list `[{index: 7, balance: 32000000000}]`
round-trips through the binary rendering, and a concrete root container
round-trips through JSON. -/
theorem C4_response_roundtrips_witness :
    decodeBinValidatorBalanceList (encodeBinValidatorBalanceList [⟨7, 32000000000⟩]) =
      some [⟨7, 32000000000⟩] ∧
    rootContainerFromJson (rootContainerToJson ⟨List.replicate 32 0⟩) =
      some ⟨List.replicate 32 0⟩ :=
  ⟨(C4_response_roundtrips.2.2.2.2.2.2.1 [⟨7, 32000000000⟩] (by decide)).2,
    (C4_response_roundtrips.1 ⟨List.replicate 32 0⟩ (by decide)).1⟩
